import Mathlib

/-!
Verification of the provider abstraction and streaming response engine of the
fanyi-cmd repository (src/providers.js and the TypeScript providers module).

Text is modelled as lists of characters (the view after the platform
TextDecoder has turned bytes into characters); JavaScript strings become
values of type Str, undefined-or-string values become Option Str, and the
falsiness of the empty string is modelled by comparison with the empty list.
Thrown JavaScript Error objects become JsError values carrying the message
and the optional numeric statusCode field; network transports (axios, fetch)
are modelled as oracles mapping the issued request to its outcome, and each
client function additionally returns the list of requests it issued, so that
claims about "no network call before failure" are statements about that list.
-/

namespace Fanyi

/-- Character-list model of JavaScript strings. -/
abbrev Str := List Char

/-! ## JSON values and a model of the JSON.parse builtin

The stream decoder in askWithAIStream calls the platform builtin JSON.parse
inside a try/catch.  The builtin is not code of this repository, so it is
modelled here: jsonParse is a recursive-descent parser for JSON values
(objects, arrays, strings with the common escapes, integers, and the three
literals), returning none where JSON.parse would throw.  The subset is the
one exercised by chat-completion delta payloads. -/

/-- JSON value tree produced by the modelled JSON.parse. -/
inductive JVal where
  | jnull
  | jbool (b : Bool)
  | jnum (n : Int)
  | jstr (s : Str)
  | jarr (xs : List JVal)
  | jobj (kvs : List (Str × JVal))

/-- Whitespace recognised by the modelled JSON parser and by the jsTrim
model of String.prototype.trim (the ASCII subset actually arising here). -/
def isWsChar (c : Char) : Bool :=
  c = ' ' || c = '\t' || c = '\n' || c = '\r' || c = '\x0b' || c = '\x0c'

/-- Drops leading whitespace. -/
def skipWs : Str → Str
  | [] => []
  | c :: cs => if isWsChar c then skipWs cs else c :: cs

/-- Parses the body of a JSON string after the opening quote, handling the
common backslash escapes; fails on raw control characters, on an unknown
escape and on an unterminated string, as JSON.parse does. -/
def parseStringBody : Str → Option (Str × Str)
  | [] => none
  | c :: cs =>
    if c = '"' then some ([], cs)
    else if c = '\\' then
      match cs with
      | [] => none
      | e :: cs2 =>
        let esc : Option Char :=
          if e = '"' then some '"'
          else if e = '\\' then some '\\'
          else if e = '/' then some '/'
          else if e = 'n' then some '\n'
          else if e = 't' then some '\t'
          else if e = 'r' then some '\r'
          else if e = 'b' then some '\x08'
          else if e = 'f' then some '\x0c'
          else none
        match esc with
        | none => none
        | some ec => (parseStringBody cs2).map (fun p => (ec :: p.1, p.2))
    else if c.val < 32 then none
    else (parseStringBody cs).map (fun p => (c :: p.1, p.2))

/-- Consumes the given literal characters, returning the remainder. -/
def stripLit : Str → Str → Option Str
  | [], cs => some cs
  | _ :: _, [] => none
  | l :: ls, c :: cs => if c = l then stripLit ls cs else none

/-- Numeric value of a digit run. -/
def digitsVal (acc : Nat) : Str → Nat
  | [] => acc
  | c :: cs => digitsVal (acc * 10 + (c.toNat - 48)) cs

/-- Parses an unsigned integer literal. -/
def parseNumBody (cs : Str) : Option (Nat × Str) :=
  let ds := cs.takeWhile Char.isDigit
  let rest := cs.dropWhile Char.isDigit
  if ds = [] then none else some (digitsVal 0 ds, rest)

mutual

/-- Parses one JSON value; the fuel bounds the nesting-driven recursion. -/
def parseVal : Nat → Str → Option (JVal × Str)
  | 0, _ => none
  | Nat.succ f, cs0 =>
    match skipWs cs0 with
    | [] => none
    | c :: cs =>
      if c = '"' then (parseStringBody cs).map (fun p => (JVal.jstr p.1, p.2))
      else if c = '{' then
        match skipWs cs with
        | '}' :: rest => some (JVal.jobj [], rest)
        | cs2 => (parseMembers f cs2).map (fun p => (JVal.jobj p.1, p.2))
      else if c = '[' then
        match skipWs cs with
        | ']' :: rest => some (JVal.jarr [], rest)
        | cs2 => (parseItems f cs2).map (fun p => (JVal.jarr p.1, p.2))
      else if c = '-' then (parseNumBody cs).map (fun p => (JVal.jnum (-(p.1 : Int)), p.2))
      else if c.isDigit then (parseNumBody (c :: cs)).map (fun p => (JVal.jnum (p.1 : Int), p.2))
      else if c = 't' then (stripLit ['r', 'u', 'e'] cs).map (fun r => (JVal.jbool true, r))
      else if c = 'f' then (stripLit ['a', 'l', 's', 'e'] cs).map (fun r => (JVal.jbool false, r))
      else if c = 'n' then (stripLit ['u', 'l', 'l'] cs).map (fun r => (JVal.jnull, r))
      else none
termination_by structural fuel _ => fuel

/-- Parses the comma-separated items of a non-empty JSON array up to the
closing bracket. -/
def parseItems : Nat → Str → Option (List JVal × Str)
  | 0, _ => none
  | Nat.succ f, cs => do
    let (v, rest) ← parseVal f cs
    match skipWs rest with
    | ',' :: rest2 => (parseItems f rest2).map (fun p => (v :: p.1, p.2))
    | ']' :: rest2 => some ([v], rest2)
    | _ => none
termination_by structural fuel _ => fuel

/-- Parses the members of a non-empty JSON object up to the closing brace. -/
def parseMembers : Nat → Str → Option (List (Str × JVal) × Str)
  | 0, _ => none
  | Nat.succ f, cs =>
    match skipWs cs with
    | '"' :: rest => do
      let (k, rest1) ← parseStringBody rest
      match skipWs rest1 with
      | ':' :: rest2 => do
        let (v, rest3) ← parseVal f rest2
        match skipWs rest3 with
        | ',' :: rest4 => (parseMembers f rest4).map (fun p => ((k, v) :: p.1, p.2))
        | '}' :: rest4 => some ([(k, v)], rest4)
        | _ => none
      | _ => none
    | _ => none
termination_by structural fuel _ => fuel

end

/-- Model of the JSON.parse builtin: parses one value and requires that only
whitespace remains; none models a thrown SyntaxError.  The fuel is generous
enough for any input, since every recursion step consumes input. -/
def jsonParse (s : Str) : Option JVal :=
  match parseVal (2 * s.length + 2) s with
  | some (v, rest) => if skipWs rest = [] then some v else none
  | none => none

/-- Property lookup in a parsed JSON object; with duplicate keys the last
occurrence wins, as in JSON.parse. -/
def jLookup (kvs : List (Str × JVal)) (k : Str) : Option JVal :=
  match kvs with
  | [] => none
  | (k2, v) :: rest =>
    match jLookup rest k with
    | some v2 => some v2
    | none => if k2 = k then some v else none

/-- Model of indexing with 0: the head of an array, or the property named 0
of an object; anything else yields undefined. -/
def jIndex0 (j : JVal) : Option JVal :=
  match j with
  | .jarr (x :: _) => some x
  | .jobj kvs => jLookup kvs ['0']
  | _ => none

/-- Model of the optional-chain extraction parsed.choices[0].delta.content
followed by the or-empty-string default, for the string-valued deltas of the
chat-completions wire contract: any break in the chain, or a non-string
content, yields the empty string. -/
def deltaContent (j : JVal) : Str :=
  match j with
  | .jobj kvs =>
    match jLookup kvs ['c', 'h', 'o', 'i', 'c', 'e', 's'] with
    | some ch =>
      match jIndex0 ch with
      | some (.jobj kvs2) =>
        match jLookup kvs2 ['d', 'e', 'l', 't', 'a'] with
        | some (.jobj kvs3) =>
          match jLookup kvs3 ['c', 'o', 'n', 't', 'e', 'n', 't'] with
          | some (.jstr s) => s
          | _ => []
        | _ => []
      | _ => []
    | none => []
  | _ => []

/-! ## JavaScript string helpers -/

/-- Model of String.prototype.trim on the whitespace of isWsChar. -/
def jsTrim (s : Str) : Str :=
  ((s.dropWhile isWsChar).reverse.dropWhile isWsChar).reverse

/-- Decimal rendering of a natural number, as template interpolation does. -/
def natToStr (n : Nat) : Str := Nat.toDigits 10 n

/-- Tests whether the first list is a leading run of the second. -/
def leadsWith : Str → Str → Bool
  | [], _ => true
  | _ :: _, [] => false
  | a :: as, b :: bs => a = b && leadsWith as bs

/-- Substring test: containsSub n h is true when n occurs contiguously in h. -/
def containsSub (n : Str) : Str → Bool
  | [] => decide (n = [])
  | c :: hs => leadsWith n (c :: hs) || containsSub n hs

/-! ## The stream decoder of askWithAIStream

Model of the read loop of askWithAIStream (src/providers.js lines 135-169):
the buffer accumulates decoded characters; complete lines (up to each
newline) are extracted and processed; the trailing partial line stays in the
buffer.  A processed line is trimmed, must start with the data: tag, has the
tag stripped and the payload trimmed; a non-empty payload different from the
[DONE] sentinel is JSON-parsed (a failure is swallowed by the try/catch and
the line is skipped) and a non-empty delta is appended to fullText and sent
to the caller's onChunk sink.  The sent field records the sink invocations
in order. -/

/-- Characters of the tag data: checked by line.startsWith. -/
def dataTag : Str := ['d', 'a', 't', 'a', ':']

/-- Characters of the termination sentinel payload. -/
def doneTag : Str := ['[', 'D', 'O', 'N', 'E', ']']

/-- Accumulator of the decode loop: the running full text and the sink
invocations made so far, in order. -/
structure DecAcc where
  fullText : Str
  sent : List Str
  deriving DecidableEq

/-- Processing of one complete line, as in the body of the inner while loop. -/
def processLine (acc : DecAcc) (rawLine : Str) : DecAcc :=
  let line := jsTrim rawLine
  if line.take 5 = dataTag then
    let payload := jsTrim (line.drop 5)
    if payload ≠ [] ∧ payload ≠ doneTag then
      match jsonParse payload with
      | some parsed =>
        let content := deltaContent parsed
        if content ≠ [] then { fullText := acc.fullText ++ content, sent := acc.sent ++ [content] }
        else acc
      | none => acc
    else acc
  else acc

/-- Extraction of all complete lines from the buffer: the repeated indexOf
and slice of the while loop.  Returns the complete lines in order and the
trailing partial line that stays buffered. -/
def extractLines : Str → List Str × Str
  | [] => ([], [])
  | c :: cs =>
    if c = '\n' then ([] :: (extractLines cs).1, (extractLines cs).2)
    else
      match extractLines cs with
      | ([], r) => ([], c :: r)
      | (l :: ls, r) => ((c :: l) :: ls, r)

/-- Decoder state across reads: the partial-line buffer plus the accumulator. -/
structure DecState where
  buffer : Str
  acc : DecAcc
  deriving DecidableEq

/-- Processing of one read: append the fragment to the buffer, then process
every complete line, keeping the remainder buffered. -/
def processChunk (st : DecState) (chunk : Str) : DecState :=
  let lr := extractLines (st.buffer ++ chunk)
  { buffer := lr.2, acc := lr.1.foldl processLine st.acc }

/-- Initial decoder state. -/
def initState : DecState := { buffer := [], acc := { fullText := [], sent := [] } }

/-- The decoder run over a sequence of read fragments. -/
def runFrags (frags : List Str) : DecState :=
  frags.foldl processChunk initState

/-- Value returned by askWithAIStream on stream end: the trimmed full text. -/
def streamResult (frags : List Str) : Str :=
  jsTrim (runFrags frags).acc.fullText

/-- Sequence of onChunk sink invocations, in order. -/
def streamSent (frags : List Str) : List Str :=
  (runFrags frags).acc.sent

/-- Per-line summary of processLine: the delta a line contributes, if any.
Some c means the line is a data: line whose non-sentinel payload parses and
carries the non-empty delta c; none means the line contributes nothing. -/
def lineDelta (rawLine : Str) : Option Str :=
  let line := jsTrim rawLine
  if line.take 5 = dataTag then
    let payload := jsTrim (line.drop 5)
    if payload ≠ [] ∧ payload ≠ doneTag then
      match jsonParse payload with
      | some parsed =>
        let content := deltaContent parsed
        if content ≠ [] then some content else none
      | none => none
    else none
  else none

/-! ## The canonical well-formed event stream

A well-formed event stream for a sequence of deltas is one data: line per
delta carrying the standard chat-completions JSON shape, followed by the
data: [DONE] terminator, every line newline-terminated.  encodeDelta writes
the payload; plainChar restricts deltas to characters that need no JSON
string escaping (and excludes the newline), so that encodeDelta is the exact
inverse of the parser on them. -/

/-- Opening characters of the canonical delta payload, up to the content
string's opening quote. -/
def encPre : Str :=
  ['{', '"', 'c', 'h', 'o', 'i', 'c', 'e', 's', '"', ':', '[', '{', '"', 'd',
   'e', 'l', 't', 'a', '"', ':', '{', '"', 'c', 'o', 'n', 't', 'e', 'n', 't',
   '"', ':', '"']

/-- Closing characters of the canonical delta payload. -/
def encSuf : Str := ['"', '}', '}', ']', '}']

/-- Canonical JSON payload carrying one delta. -/
def encodeDelta (d : Str) : Str := encPre ++ d ++ encSuf

/-- JSON value tree of the canonical delta payload. -/
def deltaJson (d : Str) : JVal :=
  JVal.jobj [(['c', 'h', 'o', 'i', 'c', 'e', 's'],
    JVal.jarr [JVal.jobj [(['d', 'e', 'l', 't', 'a'],
      JVal.jobj [(['c', 'o', 'n', 't', 'e', 'n', 't'], JVal.jstr d)])]])]

/-- Characters needing no escape inside a JSON string: not the quote, not
the backslash, not a control character. -/
def plainChar (c : Char) : Bool :=
  !(c = '"') && !(c = '\\') && !(c.val < 32)

/-- Deltas consisting of plain characters only. -/
def plainStr (d : Str) : Bool := d.all plainChar

/-- Characters of one data: line (without its newline). -/
def dataSp : Str := ['d', 'a', 't', 'a', ':', ' ']

/-- Canonical data: line carrying one delta (without its newline). -/
def canonLine (d : Str) : Str := dataSp ++ encodeDelta d

/-- The terminator line (without its newline). -/
def doneLine : Str := dataSp ++ doneTag

/-- Canonical well-formed event stream for a sequence of deltas. -/
def canonStream (ds : List Str) : Str :=
  (ds.map (fun d => canonLine d ++ ['\n'])).flatten ++ (doneLine ++ ['\n'])

/-! ## Decoder lemmas -/

/-- processLine in terms of the per-line summary. -/
theorem processLine_eq (acc : DecAcc) (l : Str) :
    processLine acc l =
      match lineDelta l with
      | some c => { fullText := acc.fullText ++ c, sent := acc.sent ++ [c] }
      | none => acc := by
  simp only [processLine, lineDelta]
  by_cases h1 : (jsTrim l).take 5 = dataTag
  · rw [if_pos h1, if_pos h1]
    by_cases h2 : jsTrim ((jsTrim l).drop 5) ≠ [] ∧ jsTrim ((jsTrim l).drop 5) ≠ doneTag
    · rw [if_pos h2, if_pos h2]
      cases hp : jsonParse (jsTrim ((jsTrim l).drop 5)) with
      | none => simp [hp]
      | some parsed =>
        simp only [hp]
        by_cases h3 : deltaContent parsed ≠ []
        · rw [if_pos h3, if_pos h3]
        · rw [if_neg h3, if_neg h3]
    · rw [if_neg h2, if_neg h2]
  · rw [if_neg h1, if_neg h1]

/-- Lines contributing nothing leave the accumulator unchanged. -/
theorem processLine_none {l : Str} (h : lineDelta l = none) (acc : DecAcc) :
    processLine acc l = acc := by
  rw [processLine_eq, h]

/-- Lines carrying a delta extend the text and the sink record. -/
theorem processLine_some {l c : Str} (h : lineDelta l = some c) (acc : DecAcc) :
    processLine acc l = { fullText := acc.fullText ++ c, sent := acc.sent ++ [c] } := by
  rw [processLine_eq, h]

/-- Appending input on the right extends the extracted lines on the right:
the lines of u followed by the lines of the leftover of u glued to v. -/
theorem extractLines_append (u v : Str) :
    extractLines (u ++ v) =
      ((extractLines u).1 ++ (extractLines ((extractLines u).2 ++ v)).1,
       (extractLines ((extractLines u).2 ++ v)).2) := by
  induction u with
  | nil => simp [extractLines]
  | cons c cs ih =>
    by_cases hc : c = '\n'
    · subst hc
      simp [extractLines, ih]
    · rcases h1 : extractLines cs with ⟨ls, r⟩
      cases ls with
      | nil =>
        have hLhs : extractLines (cs ++ v) = extractLines (r ++ v) := by
          rw [ih, h1]; simp
        rcases h2 : extractLines (r ++ v) with ⟨ls2, r2⟩
        cases ls2 with
        | nil =>
          simp [extractLines, hc, h1, hLhs, h2, List.cons_append]
        | cons l2 ls2' =>
          simp [extractLines, hc, h1, hLhs, h2, List.cons_append]
      | cons l0 ls0 =>
        rcases h2 : extractLines (r ++ v) with ⟨ls2, r2⟩
        have hLhs : extractLines (cs ++ v) = (l0 :: (ls0 ++ ls2), r2) := by
          rw [ih, h1, h2]
          simp
        simp [extractLines, hc, h1, hLhs, h2, List.cons_append]

/-- Feeding two fragments in sequence equals feeding their concatenation:
the decoder is invariant to where read boundaries fall. -/
theorem processChunk_append (st : DecState) (a b : Str) :
    processChunk (processChunk st a) b = processChunk st (a ++ b) := by
  unfold processChunk
  rcases h1 : extractLines (st.buffer ++ a) with ⟨ls1, r1⟩
  have h2 := extractLines_append (st.buffer ++ a) b
  rw [h1] at h2
  simp only [List.append_assoc] at h2
  simp [h2, h1, List.foldl_append]

/-- Folding fragments from a state reached by one feed equals one feed of
the whole concatenation. -/
theorem foldl_processChunk (frags : List Str) : ∀ (st : DecState) (x : Str),
    frags.foldl processChunk (processChunk st x) = processChunk st (x ++ frags.flatten) := by
  induction frags with
  | nil => intro st x; simp
  | cons a fs ih =>
    intro st x
    calc (a :: fs).foldl processChunk (processChunk st x)
        = fs.foldl processChunk (processChunk (processChunk st x) a) := rfl
      _ = fs.foldl processChunk (processChunk st (x ++ a)) := by rw [processChunk_append]
      _ = processChunk st ((x ++ a) ++ fs.flatten) := ih st (x ++ a)
      _ = processChunk st (x ++ (a :: fs).flatten) := by simp [List.append_assoc]

/-- Fragment-boundary invariance: the whole run depends only on the
concatenation of the fragments. -/
theorem runFrags_flatten (frags : List Str) :
    runFrags frags = processChunk initState frags.flatten := by
  cases frags with
  | nil => rfl
  | cons a fs =>
    have h0 : processChunk initState [] = initState := rfl
    calc runFrags (a :: fs)
        = fs.foldl processChunk (processChunk initState a) := rfl
      _ = processChunk initState (a ++ fs.flatten) := foldl_processChunk fs initState a
      _ = processChunk initState (a :: fs).flatten := rfl

/-- The accumulated full text is always the concatenation of the sink
invocations. -/
theorem fullText_eq_flatten_sent (frags : List Str) :
    (runFrags frags).acc.fullText = ((runFrags frags).acc.sent).flatten := by
  have key : ∀ (lines : List Str) (acc : DecAcc),
      acc.fullText = acc.sent.flatten →
      (lines.foldl processLine acc).fullText = (lines.foldl processLine acc).sent.flatten := by
    intro lines
    induction lines with
    | nil => intro acc h; exact h
    | cons l ls ih =>
      intro acc h
      rcases hl : lineDelta l with _ | c
      · simpa [processLine_none hl] using ih acc h
      · refine ih _ ?_
        simp [processLine_some hl, h]
  have main : ∀ (frs : List Str) (st : DecState),
      st.acc.fullText = st.acc.sent.flatten →
      (frs.foldl processChunk st).acc.fullText = (frs.foldl processChunk st).acc.sent.flatten := by
    intro frs
    induction frs with
    | nil => intro st h; exact h
    | cons a fs ih =>
      intro st h
      exact ih _ (key _ _ h)
  exact main frags initState rfl

/-! ## Round trip of the canonical payload through the parser -/

/-- The parser of string bodies is the exact inverse of plain encoding. -/
theorem parseStringBody_plain {d : Str} (hd : plainStr d = true) :
    ∀ rest, parseStringBody (d ++ '"' :: rest) = some (d, rest) := by
  induction d with
  | nil =>
    intro rest
    rw [List.nil_append, parseStringBody.eq_def]
    simp
  | cons c cs ih =>
    intro rest
    simp only [plainStr, List.all_cons, Bool.and_eq_true] at hd
    have hc := hd.1
    have ihs := ih hd.2 rest
    simp only [plainChar, Bool.and_eq_true, Bool.not_eq_true', decide_eq_false_iff_not] at hc
    obtain ⟨⟨hq, hb⟩, hv⟩ := hc
    rw [List.cons_append, parseStringBody.eq_def]
    simp [hq, hb, hv, ihs]

/-- skipWs keeps a non-whitespace head. -/
theorem skipWs_nws {c : Char} (h : isWsChar c = false) (cs : Str) :
    skipWs (c :: cs) = c :: cs := by
  rw [skipWs.eq_def]
  simp [h]

/-- Round trip, level 1: the content string. -/
theorem pv_str {d : Str} (hd : plainStr d = true) (g : Nat) (rest : Str) :
    parseVal (g + 1) ('"' :: (d ++ '"' :: rest)) = some (JVal.jstr d, rest) := by
  rw [show g + 1 = Nat.succ g from rfl, parseVal.eq_def]
  simp [skipWs_nws, isWsChar, parseStringBody_plain hd]

/-- Round trip, level 2: the content member. -/
theorem pm_content {d : Str} (hd : plainStr d = true) (g : Nat) (rest : Str) :
    parseMembers (g + 2)
      ('"' :: 'c' :: 'o' :: 'n' :: 't' :: 'e' :: 'n' :: 't' :: '"' :: ':' :: '"' ::
        (d ++ '"' :: '}' :: rest)) =
      some ([(['c', 'o', 'n', 't', 'e', 'n', 't'], JVal.jstr d)], rest) := by
  have hkey : parseStringBody ('c' :: 'o' :: 'n' :: 't' :: 'e' :: 'n' :: 't' :: '"' ::
      (':' :: '"' :: (d ++ '"' :: '}' :: rest))) =
      some (['c', 'o', 'n', 't', 'e', 'n', 't'], ':' :: '"' :: (d ++ '"' :: '}' :: rest)) := by
    simpa using parseStringBody_plain (d := ['c', 'o', 'n', 't', 'e', 'n', 't']) (by decide)
      (':' :: '"' :: (d ++ '"' :: '}' :: rest))
  rw [show g + 2 = Nat.succ (g + 1) from rfl, parseMembers.eq_def]
  simp [skipWs_nws, isWsChar, hkey, pv_str hd]

/-- Round trip, level 3: the content object. -/
theorem pv_contentObj {d : Str} (hd : plainStr d = true) (g : Nat) (rest : Str) :
    parseVal (g + 3)
      ('{' :: '"' :: 'c' :: 'o' :: 'n' :: 't' :: 'e' :: 'n' :: 't' :: '"' :: ':' :: '"' ::
        (d ++ '"' :: '}' :: rest)) =
      some (JVal.jobj [(['c', 'o', 'n', 't', 'e', 'n', 't'], JVal.jstr d)], rest) := by
  rw [show g + 3 = Nat.succ (g + 2) from rfl, parseVal.eq_def]
  simp [skipWs_nws, isWsChar, pm_content hd]

/-- Round trip, level 4: the delta member. -/
theorem pm_delta {d : Str} (hd : plainStr d = true) (g : Nat) (rest : Str) :
    parseMembers (g + 4)
      ('"' :: 'd' :: 'e' :: 'l' :: 't' :: 'a' :: '"' :: ':' ::
        '{' :: '"' :: 'c' :: 'o' :: 'n' :: 't' :: 'e' :: 'n' :: 't' :: '"' :: ':' :: '"' ::
        (d ++ '"' :: '}' :: '}' :: rest)) =
      some ([(['d', 'e', 'l', 't', 'a'],
        JVal.jobj [(['c', 'o', 'n', 't', 'e', 'n', 't'], JVal.jstr d)])], rest) := by
  have hkey : parseStringBody ('d' :: 'e' :: 'l' :: 't' :: 'a' :: '"' ::
      (':' :: '{' :: '"' :: 'c' :: 'o' :: 'n' :: 't' :: 'e' :: 'n' :: 't' :: '"' :: ':' :: '"' ::
        (d ++ '"' :: '}' :: '}' :: rest))) =
      some (['d', 'e', 'l', 't', 'a'],
        ':' :: '{' :: '"' :: 'c' :: 'o' :: 'n' :: 't' :: 'e' :: 'n' :: 't' :: '"' :: ':' :: '"' ::
          (d ++ '"' :: '}' :: '}' :: rest)) := by
    simpa using parseStringBody_plain (d := ['d', 'e', 'l', 't', 'a']) (by decide)
      (':' :: '{' :: '"' :: 'c' :: 'o' :: 'n' :: 't' :: 'e' :: 'n' :: 't' :: '"' :: ':' :: '"' ::
        (d ++ '"' :: '}' :: '}' :: rest))
  rw [show g + 4 = Nat.succ (g + 3) from rfl, parseMembers.eq_def]
  simp [skipWs_nws, isWsChar, hkey, pv_contentObj hd]

/-- Round trip, level 5: the array element object. -/
theorem pv_elemObj {d : Str} (hd : plainStr d = true) (g : Nat) (rest : Str) :
    parseVal (g + 5)
      ('{' :: '"' :: 'd' :: 'e' :: 'l' :: 't' :: 'a' :: '"' :: ':' ::
        '{' :: '"' :: 'c' :: 'o' :: 'n' :: 't' :: 'e' :: 'n' :: 't' :: '"' :: ':' :: '"' ::
        (d ++ '"' :: '}' :: '}' :: rest)) =
      some (JVal.jobj [(['d', 'e', 'l', 't', 'a'],
        JVal.jobj [(['c', 'o', 'n', 't', 'e', 'n', 't'], JVal.jstr d)])], rest) := by
  rw [show g + 5 = Nat.succ (g + 4) from rfl, parseVal.eq_def]
  simp [skipWs_nws, isWsChar, pm_delta hd]

/-- Round trip, level 6: the choices array items. -/
theorem pi_choices {d : Str} (hd : plainStr d = true) (g : Nat) (rest : Str) :
    parseItems (g + 6)
      ('{' :: '"' :: 'd' :: 'e' :: 'l' :: 't' :: 'a' :: '"' :: ':' ::
        '{' :: '"' :: 'c' :: 'o' :: 'n' :: 't' :: 'e' :: 'n' :: 't' :: '"' :: ':' :: '"' ::
        (d ++ '"' :: '}' :: '}' :: ']' :: rest)) =
      some ([JVal.jobj [(['d', 'e', 'l', 't', 'a'],
        JVal.jobj [(['c', 'o', 'n', 't', 'e', 'n', 't'], JVal.jstr d)])]], rest) := by
  rw [show g + 6 = Nat.succ (g + 5) from rfl, parseItems.eq_def]
  simp [skipWs_nws, isWsChar, pv_elemObj hd]

/-- Round trip, level 7: the choices array. -/
theorem pv_choicesArr {d : Str} (hd : plainStr d = true) (g : Nat) (rest : Str) :
    parseVal (g + 7)
      ('[' :: '{' :: '"' :: 'd' :: 'e' :: 'l' :: 't' :: 'a' :: '"' :: ':' ::
        '{' :: '"' :: 'c' :: 'o' :: 'n' :: 't' :: 'e' :: 'n' :: 't' :: '"' :: ':' :: '"' ::
        (d ++ '"' :: '}' :: '}' :: ']' :: rest)) =
      some (JVal.jarr [JVal.jobj [(['d', 'e', 'l', 't', 'a'],
        JVal.jobj [(['c', 'o', 'n', 't', 'e', 'n', 't'], JVal.jstr d)])]], rest) := by
  rw [show g + 7 = Nat.succ (g + 6) from rfl, parseVal.eq_def]
  simp [skipWs_nws, isWsChar, pi_choices hd]

/-- Round trip, level 8: the choices member. -/
theorem pm_choices {d : Str} (hd : plainStr d = true) (g : Nat) (rest : Str) :
    parseMembers (g + 8)
      ('"' :: 'c' :: 'h' :: 'o' :: 'i' :: 'c' :: 'e' :: 's' :: '"' :: ':' ::
        '[' :: '{' :: '"' :: 'd' :: 'e' :: 'l' :: 't' :: 'a' :: '"' :: ':' ::
        '{' :: '"' :: 'c' :: 'o' :: 'n' :: 't' :: 'e' :: 'n' :: 't' :: '"' :: ':' :: '"' ::
        (d ++ '"' :: '}' :: '}' :: ']' :: '}' :: rest)) =
      some ([(['c', 'h', 'o', 'i', 'c', 'e', 's'],
        JVal.jarr [JVal.jobj [(['d', 'e', 'l', 't', 'a'],
          JVal.jobj [(['c', 'o', 'n', 't', 'e', 'n', 't'], JVal.jstr d)])]])], rest) := by
  have hkey : parseStringBody ('c' :: 'h' :: 'o' :: 'i' :: 'c' :: 'e' :: 's' :: '"' ::
      (':' :: '[' :: '{' :: '"' :: 'd' :: 'e' :: 'l' :: 't' :: 'a' :: '"' :: ':' ::
        '{' :: '"' :: 'c' :: 'o' :: 'n' :: 't' :: 'e' :: 'n' :: 't' :: '"' :: ':' :: '"' ::
        (d ++ '"' :: '}' :: '}' :: ']' :: '}' :: rest))) =
      some (['c', 'h', 'o', 'i', 'c', 'e', 's'],
        ':' :: '[' :: '{' :: '"' :: 'd' :: 'e' :: 'l' :: 't' :: 'a' :: '"' :: ':' ::
          '{' :: '"' :: 'c' :: 'o' :: 'n' :: 't' :: 'e' :: 'n' :: 't' :: '"' :: ':' :: '"' ::
          (d ++ '"' :: '}' :: '}' :: ']' :: '}' :: rest)) := by
    simpa using parseStringBody_plain (d := ['c', 'h', 'o', 'i', 'c', 'e', 's']) (by decide)
      (':' :: '[' :: '{' :: '"' :: 'd' :: 'e' :: 'l' :: 't' :: 'a' :: '"' :: ':' ::
        '{' :: '"' :: 'c' :: 'o' :: 'n' :: 't' :: 'e' :: 'n' :: 't' :: '"' :: ':' :: '"' ::
        (d ++ '"' :: '}' :: '}' :: ']' :: '}' :: rest))
  rw [show g + 8 = Nat.succ (g + 7) from rfl, parseMembers.eq_def]
  simp [skipWs_nws, isWsChar, hkey, pv_choicesArr hd]

/-- Round trip, level 9: the whole canonical payload. -/
theorem pv_payload {d : Str} (hd : plainStr d = true) (g : Nat) (rest : Str) :
    parseVal (g + 9)
      ('{' :: '"' :: 'c' :: 'h' :: 'o' :: 'i' :: 'c' :: 'e' :: 's' :: '"' :: ':' ::
        '[' :: '{' :: '"' :: 'd' :: 'e' :: 'l' :: 't' :: 'a' :: '"' :: ':' ::
        '{' :: '"' :: 'c' :: 'o' :: 'n' :: 't' :: 'e' :: 'n' :: 't' :: '"' :: ':' :: '"' ::
        (d ++ '"' :: '}' :: '}' :: ']' :: '}' :: rest)) =
      some (deltaJson d, rest) := by
  rw [show g + 9 = Nat.succ (g + 8) from rfl, parseVal.eq_def]
  simp [skipWs_nws, isWsChar, pm_choices hd, deltaJson]

/-- Round trip of the canonical payload with arbitrary trailing input. -/
theorem parseVal_encodeDelta {d : Str} (hd : plainStr d = true) (g : Nat) (rest : Str) :
    parseVal (g + 9) (encodeDelta d ++ rest) = some (deltaJson d, rest) := by
  have hshape : encodeDelta d ++ rest =
      ('{' :: '"' :: 'c' :: 'h' :: 'o' :: 'i' :: 'c' :: 'e' :: 's' :: '"' :: ':' ::
        '[' :: '{' :: '"' :: 'd' :: 'e' :: 'l' :: 't' :: 'a' :: '"' :: ':' ::
        '{' :: '"' :: 'c' :: 'o' :: 'n' :: 't' :: 'e' :: 'n' :: 't' :: '"' :: ':' :: '"' ::
        (d ++ '"' :: '}' :: '}' :: ']' :: '}' :: rest)) := by
    simp [encodeDelta, encPre, encSuf]
  rw [hshape]
  exact pv_payload hd g rest

/-- The modelled JSON.parse recovers the canonical delta payload. -/
theorem jsonParse_encodeDelta {d : Str} (hd : plainStr d = true) :
    jsonParse (encodeDelta d) = some (deltaJson d) := by
  unfold jsonParse
  have hlen : 2 * (encodeDelta d).length + 2 = (2 * d.length + 69) + 9 := by
    simp [encodeDelta, encPre, encSuf]
    omega
  have hin : encodeDelta d = encodeDelta d ++ [] := by simp
  rw [hlen, hin, parseVal_encodeDelta hd (2 * d.length + 69) []]
  rfl

/-- Extraction recovers the delta from the canonical payload tree. -/
theorem deltaContent_deltaJson (d : Str) : deltaContent (deltaJson d) = d := rfl

/-! ## Canonical lines through the decoder -/

/-- jsTrim drops a leading whitespace character. -/
theorem jsTrim_ws_cons {w : Char} (h : isWsChar w = true) (x : Str) :
    jsTrim (w :: x) = jsTrim x := by
  simp [jsTrim, List.dropWhile_cons, h]

/-- jsTrim fixes a string with non-whitespace first and last characters. -/
theorem jsTrim_sandwich {c e : Char} (hc : isWsChar c = false) (he : isWsChar e = false)
    (l : Str) : jsTrim (c :: (l ++ [e])) = c :: (l ++ [e]) := by
  simp [jsTrim, List.dropWhile_cons, hc, he, List.reverse_append]

/-- Canonical lines carry no whitespace at either end. -/
theorem canonLine_shape (d : Str) :
    canonLine d = 'd' :: ((['a', 't', 'a', ':', ' '] ++ encPre ++ d ++ ['"', '}', '}', ']']) ++ ['}']) := by
  simp [canonLine, dataSp, encodeDelta, encPre, encSuf]

/-- jsTrim fixes a canonical line. -/
theorem jsTrim_canonLine (d : Str) : jsTrim (canonLine d) = canonLine d := by
  rw [canonLine_shape]
  exact jsTrim_sandwich (by decide) (by decide) _

/-- The canonical payload as shaped by encodeDelta. -/
theorem encodeDelta_shape (d : Str) :
    encodeDelta d = '{' :: ((encPre.drop 1 ++ d ++ ['"', '}', '}', ']']) ++ ['}']) := by
  simp [encodeDelta, encPre, encSuf]

/-- jsTrim fixes the canonical payload. -/
theorem jsTrim_encodeDelta (d : Str) : jsTrim (encodeDelta d) = encodeDelta d := by
  rw [encodeDelta_shape]
  exact jsTrim_sandwich (by decide) (by decide) _

/-- Canonical lines of a non-empty plain delta decode to exactly that delta. -/
theorem lineDelta_canon {d : Str} (hd : plainStr d = true) (hne : d ≠ []) :
    lineDelta (canonLine d) = some d := by
  have htrim := jsTrim_canonLine d
  have htake : (canonLine d).take 5 = dataTag := rfl
  have hdrop : (canonLine d).drop 5 = ' ' :: encodeDelta d := rfl
  have hpay : jsTrim ((canonLine d).drop 5) = encodeDelta d := by
    rw [hdrop, jsTrim_ws_cons (by decide), jsTrim_encodeDelta]
  have hne2 : encodeDelta d ≠ [] := by
    rw [encodeDelta_shape]
    exact List.cons_ne_nil _ _
  have hne3 : encodeDelta d ≠ doneTag := by
    rw [encodeDelta_shape]
    intro h
    exact absurd (List.head_eq_of_cons_eq h) (by decide)
  simp only [lineDelta, htrim, htake, hpay, if_pos rfl, jsonParse_encodeDelta hd]
  rw [if_pos (show encodeDelta d ≠ [] ∧ encodeDelta d ≠ doneTag from And.intro hne2 hne3)]
  simp [deltaContent_deltaJson, hne]

/-- The terminator line contributes nothing. -/
theorem lineDelta_done : lineDelta doneLine = none := by decide

/-- Canonical lines contain no newline. -/
theorem nl_not_mem_canonLine {d : Str} (hd : plainStr d = true) : '\n' ∉ canonLine d := by
  intro hmem
  simp [canonLine, dataSp, encodeDelta, encPre, encSuf] at hmem
  simp only [plainStr, List.all_eq_true] at hd
  have := hd _ hmem
  simp [plainChar] at this

/-- Complete lines split off one at a time. -/
theorem extractLines_complete {l : Str} (hl : '\n' ∉ l) (rest : Str) :
    extractLines (l ++ '\n' :: rest) = (l :: (extractLines rest).1, (extractLines rest).2) := by
  induction l with
  | nil => simp [extractLines]
  | cons c cs ih =>
    have hc : ¬c = '\n' := fun h => hl (by simp [h])
    have hcs : '\n' ∉ cs := fun h => hl (List.mem_cons_of_mem _ h)
    simp [extractLines, hc, ih hcs]

/-- Line extraction of the canonical stream: one line per delta, then the
terminator, with an empty leftover. -/
theorem extractLines_canonStream {ds : List Str} (hds : ∀ d ∈ ds, plainStr d = true) :
    extractLines (canonStream ds) = (ds.map canonLine ++ [doneLine], []) := by
  induction ds with
  | nil =>
    have : canonStream [] = doneLine ++ '\n' :: [] := by simp [canonStream]
    rw [this, extractLines_complete (by decide)]
    simp [extractLines]
  | cons d ds ih =>
    have hstream : canonStream (d :: ds) = canonLine d ++ '\n' :: canonStream ds := by
      simp [canonStream]
    rw [hstream, extractLines_complete (nl_not_mem_canonLine (hds d (by simp))),
      ih (fun x hx => hds x (by simp [hx]))]
    simp

/-- Folding the canonical lines appends the deltas to the text and to the
sink record, in order. -/
theorem foldl_canonLines {ds : List Str} (hds : ∀ d ∈ ds, d ≠ [] ∧ plainStr d = true) :
    ∀ acc : DecAcc, (ds.map canonLine ++ [doneLine]).foldl processLine acc =
      { fullText := acc.fullText ++ ds.flatten, sent := acc.sent ++ ds } := by
  induction ds with
  | nil =>
    intro acc
    simp [processLine_none lineDelta_done]
  | cons d ds ih =>
    intro acc
    have hd := hds d (by simp)
    have hstep := processLine_some (lineDelta_canon hd.2 hd.1) acc
    calc ((d :: ds).map canonLine ++ [doneLine]).foldl processLine acc
        = (ds.map canonLine ++ [doneLine]).foldl processLine (processLine acc (canonLine d)) := by
          simp
      _ = { fullText := (processLine acc (canonLine d)).fullText ++ ds.flatten,
            sent := (processLine acc (canonLine d)).sent ++ ds } :=
          ih (fun x hx => hds x (by simp [hx])) _
      _ = { fullText := acc.fullText ++ (d :: ds).flatten, sent := acc.sent ++ d :: ds } := by
          rw [hstep]
          simp

/-- Lines with no data: tag contribute nothing. -/
theorem lineDelta_of_no_tag {l : Str} (h : (jsTrim l).take 5 ≠ dataTag) :
    lineDelta l = none := by
  simp only [lineDelta]
  rw [if_neg h]

/-- Folding lines that all contribute nothing is the identity. -/
theorem foldl_processLine_none {lines : List Str} (h : ∀ l ∈ lines, lineDelta l = none) :
    ∀ acc : DecAcc, lines.foldl processLine acc = acc := by
  induction lines with
  | nil => intro acc; rfl
  | cons l ls ih =>
    intro acc
    have : processLine acc l = acc := processLine_none (h l (by simp)) acc
    simp only [List.foldl_cons, this]
    exact ih (fun x hx => h x (by simp [hx])) acc

/-- Removing a line that contributes nothing does not change a fold. -/
theorem foldl_insert_none {b : Str} (hb : lineDelta b = none) :
    ∀ (pre post : List Str) (acc : DecAcc),
      (pre ++ b :: post).foldl processLine acc = (pre ++ post).foldl processLine acc := by
  intro pre
  induction pre with
  | nil =>
    intro post acc
    simp [processLine_none hb]
  | cons p ps ih =>
    intro post acc
    simp only [List.cons_append, List.foldl_cons]
    exact ih post (processLine acc p)

/-- Concrete malformed payload: an opening brace followed by text that is
not JSON. -/
def notJsonPayload : Str := '{' :: ('n' :: 'o' :: 't' :: ' ' :: 'j' :: 's' :: 'o' :: 'n' :: [])

/-- Concrete data: line with the malformed payload. -/
def notJsonLine : Str := dataSp ++ notJsonPayload

/-- Concrete stream: a malformed data: line followed by a valid one. -/
def c3Stream : Str := (notJsonLine ++ ['\n']) ++ (canonLine ['o', 'k'] ++ ['\n'])

/-- Concrete stream: the sentinel line followed by a further data: line. -/
def sentinelThenData : Str := (doneLine ++ ['\n']) ++ (canonLine ['X'] ++ ['\n'])

/-- C1: stream decoding is invariant to fragment boundaries and
order-preserving.  First part: for every fragment sequence concatenating to
the canonical well-formed event stream of non-empty plain deltas, the sink
is invoked exactly once per delta, in order, and the decoder returns the
trimmed concatenation of the deltas.  Second part: the two-fragment He/llo
stream split at an arbitrary offset yields sink calls He then llo and the
result Hello.  Third part: a body with no data: lines yields the empty
string and no sink call. -/
theorem spec_c1_stream_decoding :
    (∀ (frags : List Str) (ds : List Str),
        (∀ d ∈ ds, d ≠ [] ∧ plainStr d = true) →
        frags.flatten = canonStream ds →
        streamSent frags = ds ∧ streamResult frags = jsTrim ds.flatten)
    ∧ (∀ a b : Str, a ++ b = canonStream [['H', 'e'], ['l', 'l', 'o']] →
        streamSent [a, b] = [['H', 'e'], ['l', 'l', 'o']] ∧
        streamResult [a, b] = ['H', 'e', 'l', 'l', 'o'])
    ∧ (∀ frags : List Str,
        (∀ l ∈ (extractLines frags.flatten).1, (jsTrim l).take 5 ≠ dataTag) →
        streamSent frags = [] ∧ streamResult frags = []) := by
  have main : ∀ (frags ds : List Str), (∀ d ∈ ds, d ≠ [] ∧ plainStr d = true) →
      frags.flatten = canonStream ds →
      streamSent frags = ds ∧ streamResult frags = jsTrim ds.flatten := by
    intro frags ds hds hjoin
    have hrun : runFrags frags = processChunk initState (canonStream ds) := by
      rw [runFrags_flatten, hjoin]
    have hchunk : processChunk initState (canonStream ds) =
        { buffer := [], acc := { fullText := ds.flatten, sent := ds } } := by
      simp only [processChunk, initState, List.nil_append]
      rw [extractLines_canonStream (fun d hd => (hds d hd).2)]
      simp [foldl_canonLines hds]
    constructor
    · simp [streamSent, hrun, hchunk]
    · simp [streamResult, hrun, hchunk]
  refine ⟨main, ?_, ?_⟩
  · intro a b hab
    have h := main [a, b] [['H', 'e'], ['l', 'l', 'o']] (by decide) (by simpa using hab)
    refine ⟨h.1, ?_⟩
    rw [h.2]
    decide
  · intro frags h
    have hnone : ∀ l ∈ (extractLines frags.flatten).1, lineDelta l = none :=
      fun l hl => lineDelta_of_no_tag (h l hl)
    have hrun : runFrags frags =
        { buffer := (extractLines frags.flatten).2, acc := initState.acc } := by
      rw [runFrags_flatten]
      simp only [processChunk, initState, List.nil_append]
      rw [foldl_processLine_none hnone]
    constructor <;> simp [streamSent, streamResult, hrun, initState, jsTrim]

/-- Witness for C1: the He/llo stream split at byte offset 10, inside the
first JSON object. -/
theorem spec_c1_witness :
    streamSent [(canonStream [['H', 'e'], ['l', 'l', 'o']]).take 10,
        (canonStream [['H', 'e'], ['l', 'l', 'o']]).drop 10] = [['H', 'e'], ['l', 'l', 'o']] ∧
    streamResult [(canonStream [['H', 'e'], ['l', 'l', 'o']]).take 10,
        (canonStream [['H', 'e'], ['l', 'l', 'o']]).drop 10] = ['H', 'e', 'l', 'l', 'o'] :=
  spec_c1_stream_decoding.2.1 _ _ (List.take_append_drop 10 _)

/-- Counterexample to C2 as stated: in the stream whose only delta-bearing
data: line arrives after the data: [DONE] sentinel, the decoder still
invokes the sink for it (the sink record is the one-element list X, not the
empty list the claim requires). -/
theorem spec_c2_counterexample :
    streamSent [sentinelThenData] = [['X']] ∧ ([['X']] : List Str) ≠ [] := by decide

/-- C2 amended: a line whose payload equals the sentinel contributes
nothing itself (no sink invocation, no accumulation), and the decoder keeps
draining: the rest of the stream is processed exactly as if the sentinel
line were absent, so later data: lines are still decoded and delivered. -/
theorem spec_c2_sentinel_line_inert :
    (∀ (acc : DecAcc) (l : Str), (jsTrim l).take 5 = dataTag →
        jsTrim ((jsTrim l).drop 5) = doneTag → processLine acc l = acc)
    ∧ (∀ (pre post : List Str) (acc : DecAcc),
        (pre ++ doneLine :: post).foldl processLine acc =
          (pre ++ post).foldl processLine acc) := by
  constructor
  · intro acc l h1 h2
    apply processLine_none
    simp only [lineDelta, h1, if_pos rfl, h2]
    simp
  · exact foldl_insert_none lineDelta_done

/-- Witness for C2 amended: the concrete sentinel line leaves the empty
accumulator unchanged. -/
theorem spec_c2_witness :
    processLine { fullText := [], sent := [] } doneLine = { fullText := [], sent := [] } :=
  spec_c2_sentinel_line_inert.1 _ doneLine (by decide) (by decide)

/-- C3: the decoder never aborts on malformed payloads.  First part: a line
whose payload fails to parse leaves the accumulator unchanged (the model of
the try/catch is total, so nothing is raised).  Second part: a line
contributing nothing can be removed without changing the decoding of the
remaining lines, so a valid line after a malformed one is still delivered.
Third part: the concrete stream of a data: open-brace-not-json line
followed by a valid delta line yields exactly that delta. -/
theorem spec_c3_malformed_tolerated :
    (∀ (acc : DecAcc) (l : Str), (jsonParse (jsTrim ((jsTrim l).drop 5))).isNone = true →
        processLine acc l = acc)
    ∧ (∀ (pre post : List Str) (acc : DecAcc) (badl : Str), lineDelta badl = none →
        (pre ++ badl :: post).foldl processLine acc = (pre ++ post).foldl processLine acc)
    ∧ (streamSent [c3Stream] = [['o', 'k']] ∧ streamResult [c3Stream] = ['o', 'k']) := by
  refine ⟨?_, ?_, by decide⟩
  · intro acc l hp
    rw [Option.isNone_iff_eq_none] at hp
    apply processLine_none
    simp only [lineDelta]
    by_cases h1 : (jsTrim l).take 5 = dataTag
    · rw [if_pos h1]
      by_cases h2 : jsTrim ((jsTrim l).drop 5) ≠ [] ∧ jsTrim ((jsTrim l).drop 5) ≠ doneTag
      · rw [if_pos h2, hp]
      · rw [if_neg h2]
    · rw [if_neg h1]
  · intro pre post acc badl hb
    exact foldl_insert_none hb pre post acc

/-- Witness for C3: the concrete malformed line leaves the empty
accumulator unchanged. -/
theorem spec_c3_witness :
    processLine { fullText := [], sent := [] } notJsonLine = { fullText := [], sent := [] } :=
  spec_c3_malformed_tolerated.1 _ notJsonLine (by decide)

/-! ## Provider registry and error normalization (src/providers.js)

The clients are modelled with the HTTP transports as oracles: an axios-based
call maps the issued request to its outcome, a fetch-based streaming call
maps the issued request to the response (whose successful body is the list
of read fragments fed to the decoder above).  Every client returns its
outcome together with the list of network requests it issued. -/

/-- Provider descriptor, one entry of the PROVIDERS table. -/
structure Provider where
  name : Str
  baseUrl : Str
  apiKeyEnv : Option Str
  defaultModel : Option Str
  deriving DecidableEq

/-- The provider registry of src/providers.js: lookup by id. -/
def PROVIDERS (id : Str) : Option Provider :=
  if id = "deepseek".data then
    some { name := "DeepSeek".data, baseUrl := "https://api.deepseek.com".data,
           apiKeyEnv := some "DEEPSEEK_API_KEY".data, defaultModel := some "deepseek-chat".data }
  else if id = "qwen".data then
    some { name := "通义千问".data,
           baseUrl := "https://dashscope.aliyuncs.com/compatible-mode/v1".data,
           apiKeyEnv := some "DASHSCOPE_API_KEY".data, defaultModel := some "qwen-plus".data }
  else if id = "openai".data then
    some { name := "ChatGPT".data, baseUrl := "https://api.openai.com/v1".data,
           apiKeyEnv := some "OPENAI_API_KEY".data, defaultModel := some "gpt-3.5-turbo".data }
  else if id = "libre".data then
    some { name := "LibreTranslate (免费)".data, baseUrl := "https://libretranslate.de".data,
           apiKeyEnv := none, defaultModel := none }
  else none

/-- The language-code table LANGUAGE_NAMES. -/
def LANGUAGE_NAMES (code : Str) : Option Str :=
  if code = "zh".data then some "中文".data
  else if code = "en".data then some "英语".data
  else if code = "ja".data then some "日语".data
  else if code = "ko".data then some "韩语".data
  else if code = "fr".data then some "法语".data
  else if code = "de".data then some "德语".data
  else if code = "es".data then some "西班牙语".data
  else if code = "ru".data then some "俄语".data
  else if code = "pt".data then some "葡萄牙语".data
  else if code = "it".data then some "意大利语".data
  else if code = "ar".data then some "阿拉伯语".data
  else if code = "auto".data then some "自动检测".data
  else none

/-- Chinese display name of a language code, the code itself as fallback. -/
def getLanguageName (code : Str) : Str := (LANGUAGE_NAMES code).getD code

/-- Thrown JavaScript Error object: the message and the optional numeric
statusCode property the code attaches. -/
structure JsError where
  message : Str
  statusCode : Option Nat
  deriving DecidableEq

/-- Raw failure fed to wrapProviderError: either an HTTP response failure
(error.response present, with the provider message at data.error.message
when JSON-shaped, and the JSON.stringify rendering of the body otherwise)
or a transport-level failure carrying the optional error code and the
message. -/
inductive RawError where
  | httpResp (status : Nat) (errMsg : Option Str) (stringified : Str)
  | transport (code : Option Str) (message : Str)
  deriving DecidableEq

/-- The network-level error codes recognised by wrapProviderError. -/
def networkErrorCodes : List Str :=
  ["ECONNRESET".data, "ECONNREFUSED".data, "ETIMEDOUT".data, "ENOTFOUND".data]

/-- Scans past the scheme separator of a URL. -/
def afterSchemeSep : Str → Option Str
  | ':' :: '/' :: '/' :: rest => some rest
  | _ :: rest => afterSchemeSep rest
  | [] => none

/-- Modelled from the platform URL builtin as used on the registry's
http(s) base URLs: the host is everything between the scheme separator and
the next slash; an unparsable value falls back to the raw string, as the
try/catch in the source does. -/
def urlHost (u : Str) : Str :=
  match afterSchemeSep u with
  | some r => r.takeWhile (fun c => c ≠ '/')
  | none => u

/-- The quota hint attached for OpenAI 402/429 responses. -/
def quotaHintStr : Str :=
  "（OpenAI 账户额度不足或已超限，请检查 Billing/充值，或先切换 deepseek/qwen）".data

/-- Head of the API-error message for a given status. -/
def apiErrHead (status : Nat) : Str :=
  "API错误: ".data ++ natToStr status ++ " - ".data

/-- The network hint naming the provider and its host. -/
def netHintStr (who host : Str) : Str :=
  "（当前网络无法连接 ".data ++ who ++ " 接口 ".data ++ host ++
    "，请检查网络/代理配置，或先切换其他 provider）".data

/-- Error normalization of src/providers.js: an HTTP response failure keeps
its status as statusCode and gains the quota hint for OpenAI 402/429; a
transport failure becomes a 502 with a host hint when the code is a known
network error code. -/
def wrapProviderError (e : RawError) (fallbackMessage : Str) (providerKey : Str) : JsError :=
  match e with
  | .httpResp status errMsg stringified =>
    let apiMessage := errMsg.getD stringified
    let quotaHint :=
      if providerKey = "openai".data ∧ (status = 402 ∨ status = 429) then quotaHintStr else []
    { message := apiErrHead status ++ apiMessage ++ quotaHint, statusCode := some status }
  | .transport code msg =>
    let providerHost :=
      match PROVIDERS providerKey with
      | some p => urlHost p.baseUrl
      | none => providerKey
    let who :=
      match PROVIDERS providerKey with
      | some p => p.name
      | none => providerKey
    let networkHint :=
      if (code.getD []) ∈ networkErrorCodes then netHintStr who providerHost else []
    let codeOrMsg :=
      match code with
      | some c => if c = [] then msg else c
      | none => msg
    { message := fallbackMessage ++ ": ".data ++ codeOrMsg ++ networkHint, statusCode := some 502 }

/-! ## Requests and the chat clients of src/providers.js -/

/-- Chat-completions request body: model, the two messages, temperature (in
tenths, 0.3 and 0.7 being the two values used) and the stream flag. -/
structure ChatPayload where
  model : Option Str
  systemContent : Str
  userContent : Str
  temperatureTenths : Nat
  stream : Bool
  deriving DecidableEq

/-- One issued chat-completions request. -/
structure NetCall where
  url : Str
  apiKey : Str
  payload : ChatPayload
  deriving DecidableEq

/-- Outcome of a client call: the returned text or the thrown error. -/
inductive CallOutcome where
  | ok (text : Str)
  | fail (e : JsError)
  deriving DecidableEq

/-- Outcome of one axios chat-completions POST: the successful message
content at choices 0, or the raw failure. -/
inductive AxiosChat where
  | ok (content : Str)
  | err (e : RawError)

/-- Outcome of one fetch chat-completions POST: a successful streamed body
as the list of read fragments, a successful response without a body, a
non-ok response with the text readErrorBody extracts, or a rejected fetch
promise with its message. -/
inductive FetchChat where
  | ok (frags : List Str)
  | noBody
  | httpErr (status : Nat) (bodyMsg : Str)
  | netFail (message : Str)

/-- The chat-completions endpoint of a provider. -/
def chatUrl (pc : Provider) : Str := pc.baseUrl ++ "/chat/completions".data

/-- System prompt of the ask payload. -/
def askSystemStr : Str :=
  "You are a helpful AI assistant. Answer clearly and concisely in Chinese unless the user requests another language.".data

/-- Opening of the translation system prompt. -/
def transSysA : Str :=
  "You are a professional translator. Translate the user's text from ".data

/-- Middle of the translation system prompt. -/
def transSysB : Str := " to ".data

/-- Closing of the translation system prompt. -/
def transSysC : Str :=
  ". Only return the translated text without any explanation or additional content.".data

/-- buildAskPayload of src/providers.js (temperature 0.7). -/
def buildAskPayload (pc : Provider) (question : Str) (stream : Bool) : ChatPayload :=
  { model := pc.defaultModel, systemContent := askSystemStr, userContent := question,
    temperatureTenths := 7, stream := stream }

/-- Translation payload (temperature 0.3) with the language names resolved. -/
def buildTranslatePayload (pc : Provider) (text fromL toL : Str) (stream : Bool) : ChatPayload :=
  { model := pc.defaultModel,
    systemContent := transSysA ++ getLanguageName fromL ++ transSysB ++ getLanguageName toL ++ transSysC,
    userContent := text, temperatureTenths := 3, stream := stream }

/-- Fallback message of the ask clients for a provider. -/
def askFallback (pc : Provider) : Str := "请求".data ++ pc.name ++ "问答服务失败".data

/-- Fallback message of the translate client for a provider. -/
def transFallback (pc : Provider) : Str := "请求".data ++ pc.name ++ "翻译服务失败".data

/-- askWithAI of src/providers.js: one non-streaming axios POST; the
trimmed message content on success, the wrapped error on failure.  The
callers guarantee the provider is registered, so its descriptor is passed
directly. -/
def askWithAI (provider : Str) (pc : Provider) (question apiKey : Str)
    (net : NetCall → AxiosChat) : CallOutcome × List NetCall :=
  let call : NetCall :=
    { url := chatUrl pc, apiKey := apiKey, payload := buildAskPayload pc question false }
  match net call with
  | .ok content => (.ok (jsTrim content), [call])
  | .err e => (.fail (wrapProviderError e (askFallback pc) provider), [call])

/-- askWithAIStream of src/providers.js: one streaming fetch POST.  A
non-ok response is wrapped through wrapProviderError with the status and
the extracted body message; a missing body is the 502 empty-stream error;
a successful body is decoded by the stream decoder, whose sink invocations
are returned as the third component; a rejected fetch propagates unwrapped
(there is no try/catch around fetch in the source), so it carries no
statusCode. -/
def askWithAIStream (provider : Str) (pc : Provider) (question apiKey : Str)
    (fnet : NetCall → FetchChat) : CallOutcome × List NetCall × List Str :=
  let call : NetCall :=
    { url := chatUrl pc, apiKey := apiKey, payload := buildAskPayload pc question true }
  match fnet call with
  | .httpErr s body =>
    (.fail (wrapProviderError (.httpResp s (some body) body) (askFallback pc) provider),
      [call], [])
  | .noBody =>
    (.fail { message := askFallback pc ++ ": 响应流为空".data, statusCode := some 502 },
      [call], [])
  | .ok frags => (.ok (streamResult frags), [call], streamSent frags)
  | .netFail m => (.fail { message := m, statusCode := none }, [call], [])

/-- translateWithAI of src/providers.js: one non-streaming axios POST with
the translation payload. -/
def translateWithAI (provider : Str) (pc : Provider) (text fromL toL apiKey : Str)
    (net : NetCall → AxiosChat) : CallOutcome × List NetCall :=
  let call : NetCall :=
    { url := chatUrl pc, apiKey := apiKey, payload := buildTranslatePayload pc text fromL toL false }
  match net call with
  | .ok content => (.ok (jsTrim content), [call])
  | .err e => (.fail (wrapProviderError e (transFallback pc) provider), [call])

/-- One issued LibreTranslate request. -/
structure LibreCall where
  q : Str
  source : Str
  target : Str
  deriving DecidableEq

/-- Outcome of the LibreTranslate POST: a success carrying the coalesced
translatedText-or-translated-underscore-text field (none when neither is a
string), a non-2xx response with the optional error field and the stringify
rendering, or a transport failure. -/
inductive LibreResp where
  | ok (translated : Option Str)
  | httpErr (status : Nat) (errField : Option Str) (stringified : Str)
  | netFail (code : Option Str) (message : Str)

/-- Message of the empty-translation error thrown inside the try block. -/
def libreEmptyMsg : Str := "LibreTranslate 返回了空翻译结果".data

/-- translateWithLibre of src/providers.js.  An empty or missing
translation throws inside the try block; that error has no response and no
code, so the catch rewraps it into the 502 request-failed message carrying
the original message. -/
def translateWithLibre (text fromL toL : Str)
    (lnet : LibreCall → LibreResp) : CallOutcome × List LibreCall :=
  let call : LibreCall :=
    { q := text, source := fromL, target := toL }
  match lnet call with
  | .ok t =>
    match t with
    | some s =>
      if jsTrim s ≠ [] then (.ok s, [call])
      else (.fail { message := "请求 LibreTranslate 失败: ".data ++ libreEmptyMsg, statusCode := some 502 }, [call])
    | none =>
      (.fail { message := "请求 LibreTranslate 失败: ".data ++ libreEmptyMsg, statusCode := some 502 }, [call])
  | .httpErr s e raw =>
    (.fail { message := "LibreTranslate错误: ".data ++ natToStr s ++ " - ".data ++ e.getD raw, statusCode := some s }, [call])
  | .netFail c m =>
    let codeOrMsg := match c with | some cc => if cc = [] then m else cc | none => m
    (.fail { message := "请求 LibreTranslate 失败: ".data ++ codeOrMsg, statusCode := some 502 }, [call])

/-! ## The exported clients of src/providers.js -/

/-- Configuration of ask and askStream: the optional provider id and the
per-provider key table (the empty string modelling an absent or empty,
hence falsy, entry). -/
structure AskConfig where
  provider : Option Str
  apiKeys : Str → Str

/-- Configuration of translate. -/
structure TranslateConfig where
  provider : Option Str
  fromLang : Option Str
  toLang : Option Str
  apiKeys : Str → Str

/-- Credential resolution of src/providers.js: the per-provider key from
the configuration, else the environment variable named by the descriptor
(when one is named). -/
def resolveKeyJs (apiKeys env : Str → Str) (provider : Str) (pc : Provider) : Str :=
  let k := apiKeys provider
  if k = [] then
    match pc.apiKeyEnv with
    | some e => env e
    | none => []
  else k

/-- Unknown-provider message of translate. -/
def unknownTransMsg (p : Str) : Str := "未知的翻译服务提供商: ".data ++ p

/-- Unknown-provider message of ask and askStream. -/
def unknownAiMsg (p : Str) : Str := "未知的AI服务提供商: ".data ++ p

/-- Rejection message of ask and askStream on the translation-only
provider. -/
def libreChatMsg : Str :=
  "LibreTranslate 仅支持翻译，不支持通用问答。请将 provider 设置为 deepseek / qwen / openai。".data

/-- Missing-credential message: carries the provider display name and the
environment variable name (the JS template renders a null apiKeyEnv as the
word null). -/
def missingKeyMsg (pc : Provider) : Str :=
  "请配置".data ++ pc.name ++ "的API Key。可以通过Web界面配置或设置环境变量".data ++
    (pc.apiKeyEnv.getD "null".data)

/-- The exported ask of src/providers.js. -/
def ask (question : Str) (cfg : AskConfig) (env : Str → Str)
    (net : NetCall → AxiosChat) : CallOutcome × List NetCall :=
  let provider := cfg.provider.getD "deepseek".data
  match PROVIDERS provider with
  | none => (.fail { message := unknownAiMsg provider, statusCode := none }, [])
  | some pc =>
    if provider = "libre".data then
      (.fail { message := libreChatMsg, statusCode := none }, [])
    else
      let apiKey := resolveKeyJs cfg.apiKeys env provider pc
      if apiKey = [] then
        (.fail { message := missingKeyMsg pc, statusCode := none }, [])
      else askWithAI provider pc question apiKey net

/-- The exported askStream of src/providers.js (the sink record is the
third component). -/
def askStream (question : Str) (cfg : AskConfig) (env : Str → Str)
    (fnet : NetCall → FetchChat) : CallOutcome × List NetCall × List Str :=
  let provider := cfg.provider.getD "deepseek".data
  match PROVIDERS provider with
  | none => (.fail { message := unknownAiMsg provider, statusCode := none }, [], [])
  | some pc =>
    if provider = "libre".data then
      (.fail { message := libreChatMsg, statusCode := none }, [], [])
    else
      let apiKey := resolveKeyJs cfg.apiKeys env provider pc
      if apiKey = [] then
        (.fail { message := missingKeyMsg pc, statusCode := none }, [], [])
      else askWithAIStream provider pc question apiKey fnet

/-- The exported translate of src/providers.js: the libre branch goes to
the free endpoint before any registry or credential check; other providers
are looked up, resolved and dispatched to the chat-completions translation. -/
def translate (text : Str) (cfg : TranslateConfig) (env : Str → Str)
    (net : NetCall → AxiosChat) (lnet : LibreCall → LibreResp) :
    CallOutcome × List NetCall × List LibreCall :=
  let provider := cfg.provider.getD "libre".data
  let fromL := cfg.fromLang.getD "auto".data
  let toL := cfg.toLang.getD "zh".data
  if provider = "libre".data then
    let r := translateWithLibre text fromL toL lnet
    (r.1, [], r.2)
  else
    match PROVIDERS provider with
    | none => (.fail { message := unknownTransMsg provider, statusCode := none }, [], [])
    | some pc =>
      let apiKey := resolveKeyJs cfg.apiKeys env provider pc
      if apiKey = [] then
        (.fail { message := missingKeyMsg pc, statusCode := none }, [], [])
      else
        let r := translateWithAI provider pc text fromL toL apiKey net
        (r.1, r.2, [])

/-! ## The TypeScript providers module

The repository's TypeScript provider module (run by the ai entry point)
shares the registry shape and the decoder with src/providers.js but differs
in three ways modelled here: the credential-free libre entry points at
Google Translate, credential resolution has a third legacy-token layer, and
the streaming path is shared by ask, askStream and translate through
streamChatCompletion. -/

namespace Ts

/-- The provider registry of the TypeScript module. -/
def PROVIDERS (id : Str) : Option Provider :=
  if id = "deepseek".data then
    some { name := "DeepSeek".data, baseUrl := "https://api.deepseek.com".data,
           apiKeyEnv := some "DEEPSEEK_API_KEY".data, defaultModel := some "deepseek-chat".data }
  else if id = "qwen".data then
    some { name := "通义千问".data,
           baseUrl := "https://dashscope.aliyuncs.com/compatible-mode/v1".data,
           apiKeyEnv := some "DASHSCOPE_API_KEY".data, defaultModel := some "qwen-plus".data }
  else if id = "openai".data then
    some { name := "ChatGPT".data, baseUrl := "https://api.openai.com/v1".data,
           apiKeyEnv := some "OPENAI_API_KEY".data, defaultModel := some "gpt-3.5-turbo".data }
  else if id = "libre".data then
    some { name := "Google Translate (免费)".data, baseUrl := "https://translate.googleapis.com".data,
           apiKeyEnv := none, defaultModel := none }
  else none

/-- The layered credential resolution of the TypeScript module: the
per-provider key of the configuration, else the environment variable named
by the descriptor, else the legacy token field (a guarded assignment that
leaves the key empty when the token is empty). -/
def resolveApiKey (apiKeys env : Str → Str) (token : Str) (provider : Str) (pc : Provider) : Str :=
  let k1 := apiKeys provider
  let k2 :=
    if k1 = [] then
      match pc.apiKeyEnv with
      | some e => env e
      | none => []
    else k1
  if k2 = [] then token else k2

/-- Configuration of the TypeScript ask and askStream, with the legacy
token field. -/
structure AskConfig where
  provider : Option Str
  apiKeys : Str → Str
  token : Str

/-- Configuration of the TypeScript translate. -/
structure TranslateConfig where
  provider : Option Str
  fromLang : Option Str
  toLang : Option Str
  apiKeys : Str → Str
  token : Str

/-- Error normalization of the TypeScript module; identical to the one of
src/providers.js except that hosts and names come from this module's
registry. -/
def wrapProviderError (e : RawError) (fallbackMessage : Str) (providerKey : Str) : JsError :=
  match e with
  | .httpResp status errMsg stringified =>
    let apiMessage := errMsg.getD stringified
    let quotaHint :=
      if providerKey = "openai".data ∧ (status = 402 ∨ status = 429) then quotaHintStr else []
    { message := apiErrHead status ++ apiMessage ++ quotaHint, statusCode := some status }
  | .transport code msg =>
    let providerHost :=
      match PROVIDERS providerKey with
      | some p => urlHost p.baseUrl
      | none => providerKey
    let who :=
      match PROVIDERS providerKey with
      | some p => p.name
      | none => providerKey
    let networkHint :=
      if (code.getD []) ∈ networkErrorCodes then netHintStr who providerHost else []
    let codeOrMsg :=
      match code with
      | some c => if c = [] then msg else c
      | none => msg
    { message := fallbackMessage ++ ": ".data ++ codeOrMsg ++ networkHint, statusCode := some 502 }

/-- streamChatCompletion of the TypeScript module: the shared streaming
fetch path, parameterized by the action label of the failure messages.  The
decode loop is character-identical to the one of src/providers.js, so the
same decoder model is used. -/
def streamChatCompletion (provider : Str) (pc : Provider) (apiKey : Str)
    (payload : ChatPayload) (actionLabel : Str)
    (fnet : NetCall → FetchChat) : CallOutcome × List NetCall × List Str :=
  let call : NetCall :=
    { url := chatUrl pc, apiKey := apiKey, payload := payload }
  match fnet call with
  | .httpErr s body =>
    (.fail (wrapProviderError (.httpResp s (some body) body)
        ("请求".data ++ pc.name ++ actionLabel ++ "失败".data) provider), [call], [])
  | .noBody =>
    (.fail { message := "请求".data ++ pc.name ++ actionLabel ++ "失败: 响应流为空".data, statusCode := some 502 }, [call], [])
  | .ok frags => (.ok (streamResult frags), [call], streamSent frags)
  | .netFail m => (.fail { message := m, statusCode := none }, [call], [])

/-- askWithAIStream of the TypeScript module. -/
def askWithAIStream (provider : Str) (pc : Provider) (question apiKey : Str)
    (fnet : NetCall → FetchChat) : CallOutcome × List NetCall × List Str :=
  streamChatCompletion provider pc apiKey (buildAskPayload pc question true) "问答服务".data fnet

/-- translateWithAI of the TypeScript module: the streaming path with the
translation payload and a discarded sink. -/
def translateWithAI (provider : Str) (pc : Provider) (text fromL toL apiKey : Str)
    (fnet : NetCall → FetchChat) : CallOutcome × List NetCall × List Str :=
  streamChatCompletion provider pc apiKey (buildTranslatePayload pc text fromL toL true)
    "翻译服务".data fnet

/-- askWithAI of the TypeScript module: one non-streaming axios POST. -/
def askWithAI (provider : Str) (pc : Provider) (question apiKey : Str)
    (net : NetCall → AxiosChat) : CallOutcome × List NetCall :=
  let call : NetCall :=
    { url := chatUrl pc, apiKey := apiKey, payload := buildAskPayload pc question false }
  match net call with
  | .ok content => (.ok (jsTrim content), [call])
  | .err e => (.fail (wrapProviderError e (askFallback pc) provider), [call])

/-- One issued Google Translate request (the sl parameter already
defaulted to auto when the source language is empty). -/
structure GoogleCall where
  q : Str
  sl : Str
  tl : Str
  deriving DecidableEq

/-- Outcome of the Google Translate GET: a success carrying the joined
first-segment texts (before the final trim), a non-2xx response, or a
transport failure. -/
inductive GoogleResp where
  | ok (joined : Str)
  | httpErr (status : Nat) (errMsg : Option Str) (stringified : Str)
  | netFail (code : Option Str) (message : Str)

/-- Fallback message of the Google Translate path. -/
def googleFallback : Str := "请求 Google Translate 翻译服务失败".data

/-- Message of the empty-translation error thrown inside the try block. -/
def googleEmptyMsg : Str := "Google Translate 返回了空翻译结果".data

/-- translateWithGoogle of the TypeScript module.  An empty joined
translation throws inside the try block; the catch wraps that codeless
error through wrapProviderError, as it wraps response and transport
failures. -/
def translateWithGoogle (text fromL toL : Str)
    (gnet : GoogleCall → GoogleResp) : CallOutcome × List GoogleCall :=
  let call : GoogleCall :=
    { q := text, sl := if fromL = [] then "auto".data else fromL, tl := toL }
  match gnet call with
  | .ok joined =>
    let translated := jsTrim joined
    if translated ≠ [] then (.ok translated, [call])
    else
      (.fail (wrapProviderError (.transport none googleEmptyMsg) googleFallback "libre".data),
        [call])
  | .httpErr s m raw =>
    (.fail (wrapProviderError (.httpResp s m raw) googleFallback "libre".data), [call])
  | .netFail c m =>
    (.fail (wrapProviderError (.transport c m) googleFallback "libre".data), [call])

/-- Rejection message of the TypeScript ask and askStream on the
credential-free provider. -/
def libreChatMsg : Str :=
  "Google Translate 仅支持翻译，不支持通用问答。请将 provider 设置为 deepseek / qwen / openai。".data

/-- The exported ask of the TypeScript module. -/
def ask (question : Str) (cfg : AskConfig) (env : Str → Str)
    (net : NetCall → AxiosChat) : CallOutcome × List NetCall :=
  let provider := cfg.provider.getD "deepseek".data
  match PROVIDERS provider with
  | none => (.fail { message := unknownAiMsg provider, statusCode := none }, [])
  | some pc =>
    if provider = "libre".data then
      (.fail { message := libreChatMsg, statusCode := none }, [])
    else
      let apiKey := resolveApiKey cfg.apiKeys env cfg.token provider pc
      if apiKey = [] then
        (.fail { message := missingKeyMsg pc, statusCode := none }, [])
      else askWithAI provider pc question apiKey net

/-- The exported askStream of the TypeScript module. -/
def askStream (question : Str) (cfg : AskConfig) (env : Str → Str)
    (fnet : NetCall → FetchChat) : CallOutcome × List NetCall × List Str :=
  let provider := cfg.provider.getD "deepseek".data
  match PROVIDERS provider with
  | none => (.fail { message := unknownAiMsg provider, statusCode := none }, [], [])
  | some pc =>
    if provider = "libre".data then
      (.fail { message := libreChatMsg, statusCode := none }, [], [])
    else
      let apiKey := resolveApiKey cfg.apiKeys env cfg.token provider pc
      if apiKey = [] then
        (.fail { message := missingKeyMsg pc, statusCode := none }, [], [])
      else askWithAIStream provider pc question apiKey fnet

/-- The exported translate of the TypeScript module. -/
def translate (text : Str) (cfg : TranslateConfig) (env : Str → Str)
    (fnet : NetCall → FetchChat) (gnet : GoogleCall → GoogleResp) :
    CallOutcome × List NetCall × List GoogleCall :=
  let provider := cfg.provider.getD "libre".data
  let fromL := cfg.fromLang.getD "auto".data
  let toL := cfg.toLang.getD "zh".data
  if provider = "libre".data then
    let r := translateWithGoogle text fromL toL gnet
    (r.1, [], r.2)
  else
    match PROVIDERS provider with
    | none => (.fail { message := unknownTransMsg provider, statusCode := none }, [], [])
    | some pc =>
      let apiKey := resolveApiKey cfg.apiKeys env cfg.token provider pc
      if apiKey = [] then
        (.fail { message := missingKeyMsg pc, statusCode := none }, [], [])
      else
        let r := translateWithAI provider pc text fromL toL apiKey fnet
        (r.1, r.2.1, [])

end Ts

/-- Modelled from the spec: the CredentialResolver order of section 4.2,
first non-empty layer wins, all layers optional: the per-provider key of
the caller's configuration, then the process environment variable named by
the descriptor, then the legacy single token field. -/
def specLayeredCredential (apiKeys env : Str → Str) (token : Str) (provider : Str)
    (pc : Provider) : Str :=
  if apiKeys provider ≠ [] then apiKeys provider
  else
    let envVal :=
      match pc.apiKeyEnv with
      | some e => env e
      | none => []
    if envVal ≠ [] then envVal else token

/-! ## C4: ask as the non-streaming equivalent of askStream -/

/-- The returned text is the trimmed concatenation of the sink record. -/
theorem streamResult_eq_trim_sent (frags : List Str) :
    streamResult frags = jsTrim ((streamSent frags).flatten) := by
  unfold streamResult streamSent
  rw [fullText_eq_flatten_sent]

/-- Consistency of the two transports of one backend: a non-streaming
success carries exactly the concatenation of the deltas the streamed body
decodes to; failures are of the same kind, HTTP failures with the same
status. -/
def consistentChat (a : AxiosChat) (f : FetchChat) : Prop :=
  match a, f with
  | .ok c, .ok frags => c = (streamSent frags).flatten
  | .err (.httpResp s _ _), .httpErr s2 _ => s = s2
  | .err (.transport _ _), .netFail _ => True
  | _, _ => False

/-- C4: ask is the non-streaming equivalent of askStream.  First part:
askStream's returned full text is the trimmed concatenation of its sink
invocations.  Second part: against a backend whose two transports are
consistent, ask and askStream return the same text, and fail together with
failures of the same kind: pre-network failures are the identical error,
HTTP failures share their status code, and a transport failure is the
normalized 502 on the ask side and the unwrapped fetch rejection (without a
status) on the askStream side. -/
theorem spec_c4_ask_equiv_askStream :
    (∀ (q : Str) (cfg : AskConfig) (env : Str → Str) (fnet : NetCall → FetchChat) (t : Str),
        (askStream q cfg env fnet).1 = .ok t →
        t = jsTrim ((askStream q cfg env fnet).2.2).flatten)
    ∧ (∀ (q : Str) (cfg : AskConfig) (env : Str → Str) (net : NetCall → AxiosChat)
        (fnet : NetCall → FetchChat),
        (∀ c c', consistentChat (net c) (fnet c')) →
        ((∀ t, (ask q cfg env net).1 = .ok t ↔ (askStream q cfg env fnet).1 = .ok t)
          ∧ (∀ e eS, (ask q cfg env net).1 = .fail e → (askStream q cfg env fnet).1 = .fail eS →
              e = eS ∨ (∃ st, e.statusCode = some st ∧ eS.statusCode = some st)
                ∨ (e.statusCode = some 502 ∧ eS.statusCode = none))
          ∧ ((∃ e, (ask q cfg env net).1 = .fail e) ↔
              (∃ e, (askStream q cfg env fnet).1 = .fail e)))) := by
  constructor
  · intro q cfg env fnet t h
    rcases hp : PROVIDERS (cfg.provider.getD "deepseek".data) with _ | pc
    · simp only [askStream, hp] at h
      simp at h
    · by_cases hl : cfg.provider.getD "deepseek".data = "libre".data
      · simp only [askStream, hp, if_pos hl] at h
        simp at h
      · by_cases hk : resolveKeyJs cfg.apiKeys env (cfg.provider.getD "deepseek".data) pc = []
        · simp only [askStream, hp, if_neg hl, if_pos hk] at h
          simp at h
        · simp only [askStream, hp, if_neg hl, if_neg hk] at h ⊢
          rcases hf : fnet ⟨chatUrl pc,
              resolveKeyJs cfg.apiKeys env (cfg.provider.getD ['d', 'e', 'e', 'p', 's', 'e', 'e', 'k']) pc,
              buildAskPayload pc q true⟩ with frags | _ | ⟨s, body⟩ | m
          all_goals simp only [askWithAIStream, hf] at h ⊢
          · simp only [CallOutcome.ok.injEq] at h
            rw [← h]
            exact streamResult_eq_trim_sent frags
          · simp at h
          · simp at h
          · simp at h
  · intro q cfg env net fnet hcon
    rcases hp : PROVIDERS (cfg.provider.getD "deepseek".data) with _ | pc
    · simp only [ask, askStream, hp]
      refine ⟨by simp, ?_, by simp⟩
      intro e eS he heS
      simp only [CallOutcome.fail.injEq] at he heS
      left
      rw [← he, ← heS]
    · by_cases hl : cfg.provider.getD "deepseek".data = "libre".data
      · simp only [ask, askStream, hp, if_pos hl]
        refine ⟨by simp, ?_, by simp⟩
        intro e eS he heS
        simp only [CallOutcome.fail.injEq] at he heS
        left
        rw [← he, ← heS]
      · by_cases hk : resolveKeyJs cfg.apiKeys env (cfg.provider.getD "deepseek".data) pc = []
        · simp only [ask, askStream, hp, if_neg hl, if_pos hk]
          refine ⟨by simp, ?_, by simp⟩
          intro e eS he heS
          simp only [CallOutcome.fail.injEq] at he heS
          left
          rw [← he, ← heS]
        · simp only [ask, askStream, hp, if_neg hl, if_neg hk]
          have hcc := hcon
            ⟨chatUrl pc, resolveKeyJs cfg.apiKeys env (cfg.provider.getD ['d', 'e', 'e', 'p', 's', 'e', 'e', 'k']) pc,
              buildAskPayload pc q false⟩
            ⟨chatUrl pc, resolveKeyJs cfg.apiKeys env (cfg.provider.getD ['d', 'e', 'e', 'p', 's', 'e', 'e', 'k']) pc,
              buildAskPayload pc q true⟩
          rcases ha : net ⟨chatUrl pc,
              resolveKeyJs cfg.apiKeys env (cfg.provider.getD ['d', 'e', 'e', 'p', 's', 'e', 'e', 'k']) pc,
              buildAskPayload pc q false⟩ with c | e0
          · rcases hf : fnet ⟨chatUrl pc,
                resolveKeyJs cfg.apiKeys env (cfg.provider.getD ['d', 'e', 'e', 'p', 's', 'e', 'e', 'k']) pc,
                buildAskPayload pc q true⟩ with frags | _ | ⟨s, body⟩ | m
            · rw [ha, hf] at hcc
              simp only [consistentChat] at hcc
              have heq : jsTrim c = streamResult frags := by
                rw [hcc, streamResult_eq_trim_sent]
              simp only [askWithAI, askWithAIStream, ha, hf]
              refine ⟨by simp [heq], ?_, by simp⟩
              intro e eS he heS
              simp at he
            all_goals rw [ha, hf] at hcc
            all_goals simp [consistentChat] at hcc
          · rcases hf : fnet ⟨chatUrl pc,
                resolveKeyJs cfg.apiKeys env (cfg.provider.getD ['d', 'e', 'e', 'p', 's', 'e', 'e', 'k']) pc,
                buildAskPayload pc q true⟩ with frags | _ | ⟨s, body⟩ | m
            all_goals rw [ha, hf] at hcc
            all_goals rcases e0 with ⟨s0, m0, raw0⟩ | ⟨code0, msg0⟩
            all_goals simp only [consistentChat] at hcc
            · -- httpResp versus httpErr with equal status
              subst hcc
              simp only [askWithAI, askWithAIStream, ha, hf]
              refine ⟨by simp, ?_, by simp⟩
              intro e eS he heS
              simp only [CallOutcome.fail.injEq] at he heS
              right; left
              refine ⟨s0, ?_, ?_⟩
              · rw [← he]; rfl
              · rw [← heS]; rfl
            · -- transport versus netFail
              simp only [askWithAI, askWithAIStream, ha, hf]
              refine ⟨by simp, ?_, by simp⟩
              intro e eS he heS
              simp only [CallOutcome.fail.injEq] at he heS
              right; right
              constructor
              · rw [← he]; rfl
              · rw [← heS]

/-- Concrete ask configuration for witnesses. -/
def c4Cfg : AskConfig := { provider := some "deepseek".data, apiKeys := fun _ => ['k'] }

/-- Concrete environment with no variables set. -/
def emptyEnv : Str → Str := fun _ => []

/-- Concrete non-streaming oracle answering hi. -/
def c4Net : NetCall → AxiosChat := fun _ => AxiosChat.ok ['h', 'i']

/-- Concrete streaming oracle answering the canonical hi stream. -/
def c4Fnet : NetCall → FetchChat := fun _ => FetchChat.ok [canonStream [['h', 'i']]]

/-- Witness for C4: over a consistent concrete backend the two clients
return the same text. -/
theorem spec_c4_witness :
    (ask ['x'] c4Cfg emptyEnv c4Net).1 = .ok ['h', 'i'] ↔
      (askStream ['x'] c4Cfg emptyEnv c4Fnet).1 = .ok ['h', 'i'] :=
  ((spec_c4_ask_equiv_askStream.2 ['x'] c4Cfg emptyEnv c4Net c4Fnet
      (fun _ _ => by simp only [c4Net, c4Fnet, consistentChat]; decide)).1 ['h', 'i'])

/-! ## C5: layered credential resolution -/

/-- The credential-bearing providers. -/
def credProviders : List Str := ["deepseek".data, "qwen".data, "openai".data]

/-- C5: the credential layers.  First part: the imperative resolution of
the TypeScript module equals the spec's layered order, first non-empty
wins: the per-provider key, then the environment variable named by the
descriptor, then the legacy token.  Remaining parts: every network request
that translate, ask or askStream issues carries exactly the credential that
this resolution selects for the configured provider. -/
theorem spec_c5_credential_layers :
    (∀ (apiKeys env : Str → Str) (token provider : Str) (pc : Provider),
        Ts.resolveApiKey apiKeys env token provider pc =
          specLayeredCredential apiKeys env token provider pc)
    ∧ (∀ (q : Str) (cfg : Ts.AskConfig) (env : Str → Str) (net : NetCall → AxiosChat),
        ∀ c ∈ (Ts.ask q cfg env net).2, ∃ pc,
          Ts.PROVIDERS (cfg.provider.getD "deepseek".data) = some pc ∧
          c.apiKey = Ts.resolveApiKey cfg.apiKeys env cfg.token
            (cfg.provider.getD "deepseek".data) pc)
    ∧ (∀ (q : Str) (cfg : Ts.AskConfig) (env : Str → Str) (fnet : NetCall → FetchChat),
        ∀ c ∈ (Ts.askStream q cfg env fnet).2.1, ∃ pc,
          Ts.PROVIDERS (cfg.provider.getD "deepseek".data) = some pc ∧
          c.apiKey = Ts.resolveApiKey cfg.apiKeys env cfg.token
            (cfg.provider.getD "deepseek".data) pc)
    ∧ (∀ (text : Str) (cfg : Ts.TranslateConfig) (env : Str → Str)
        (fnet : NetCall → FetchChat) (gnet : Ts.GoogleCall → Ts.GoogleResp),
        ∀ c ∈ (Ts.translate text cfg env fnet gnet).2.1, ∃ pc,
          Ts.PROVIDERS (cfg.provider.getD "libre".data) = some pc ∧
          c.apiKey = Ts.resolveApiKey cfg.apiKeys env cfg.token
            (cfg.provider.getD "libre".data) pc) := by
  refine ⟨?_, ?_, ?_, ?_⟩
  · intro apiKeys env token provider pc
    simp only [Ts.resolveApiKey, specLayeredCredential]
    by_cases h1 : apiKeys provider = []
    · rw [if_pos h1]
      cases he : pc.apiKeyEnv with
      | none => simp [h1]
      | some e =>
        by_cases h2 : env e = []
        · simp [h1, h2]
        · simp [h1, h2]
    · simp [h1]
  · intro q cfg env net c hc
    rcases hp : Ts.PROVIDERS (cfg.provider.getD "deepseek".data) with _ | pc
    · simp only [Ts.ask, hp] at hc
      simp at hc
    · by_cases hl : cfg.provider.getD "deepseek".data = "libre".data
      · simp only [Ts.ask, hp, if_pos hl] at hc
        simp at hc
      · by_cases hk : Ts.resolveApiKey cfg.apiKeys env cfg.token
            (cfg.provider.getD "deepseek".data) pc = []
        · simp only [Ts.ask, hp, if_neg hl, if_pos hk] at hc
          simp at hc
        · simp only [Ts.ask, Ts.askWithAI, hp, if_neg hl, if_neg hk] at hc
          rcases hn : net ⟨chatUrl pc,
              Ts.resolveApiKey cfg.apiKeys env cfg.token
                (cfg.provider.getD ['d', 'e', 'e', 'p', 's', 'e', 'e', 'k']) pc,
              buildAskPayload pc q false⟩ with c0 | e0
          all_goals simp only [hn] at hc
          all_goals simp at hc
          all_goals subst hc
          all_goals exact ⟨pc, rfl, rfl⟩
  · intro q cfg env fnet c hc
    rcases hp : Ts.PROVIDERS (cfg.provider.getD "deepseek".data) with _ | pc
    · simp only [Ts.askStream, hp] at hc
      simp at hc
    · by_cases hl : cfg.provider.getD "deepseek".data = "libre".data
      · simp only [Ts.askStream, hp, if_pos hl] at hc
        simp at hc
      · by_cases hk : Ts.resolveApiKey cfg.apiKeys env cfg.token
            (cfg.provider.getD "deepseek".data) pc = []
        · simp only [Ts.askStream, hp, if_neg hl, if_pos hk] at hc
          simp at hc
        · simp only [Ts.askStream, Ts.askWithAIStream, Ts.streamChatCompletion,
            hp, if_neg hl, if_neg hk] at hc
          rcases hn : fnet ⟨chatUrl pc,
              Ts.resolveApiKey cfg.apiKeys env cfg.token
                (cfg.provider.getD ['d', 'e', 'e', 'p', 's', 'e', 'e', 'k']) pc,
              buildAskPayload pc q true⟩ with frags | _ | ⟨s, body⟩ | m
          all_goals simp only [hn] at hc
          all_goals simp at hc
          all_goals subst hc
          all_goals exact ⟨pc, rfl, rfl⟩
  · intro text cfg env fnet gnet c hc
    by_cases hl : cfg.provider.getD "libre".data = "libre".data
    · simp only [Ts.translate, if_pos hl] at hc
      simp at hc
    · rcases hp : Ts.PROVIDERS (cfg.provider.getD "libre".data) with _ | pc
      · simp only [Ts.translate, if_neg hl, hp] at hc
        simp at hc
      · by_cases hk : Ts.resolveApiKey cfg.apiKeys env cfg.token
            (cfg.provider.getD "libre".data) pc = []
        · simp only [Ts.translate, if_neg hl, hp, if_pos hk] at hc
          simp at hc
        · simp only [Ts.translate, Ts.translateWithAI, Ts.streamChatCompletion,
            if_neg hl, hp, if_neg hk] at hc
          rcases hn : fnet ⟨chatUrl pc,
              Ts.resolveApiKey cfg.apiKeys env cfg.token
                (cfg.provider.getD ['l', 'i', 'b', 'r', 'e']) pc,
              buildTranslatePayload pc text (cfg.fromLang.getD ['a', 'u', 't', 'o'])
                (cfg.toLang.getD ['z', 'h']) true⟩ with frags | _ | ⟨s, body⟩ | m
          all_goals simp only [hn] at hc
          all_goals simp at hc
          all_goals subst hc
          all_goals exact ⟨pc, rfl, rfl⟩

/-- Witness for C5: a configuration with an empty per-provider key and a
set environment variable resolves to the environment layer. -/
theorem spec_c5_witness :
    Ts.resolveApiKey (fun _ => []) (fun _ => ['x']) ['t'] "qwen".data
        { name := "通义千问".data,
          baseUrl := "https://dashscope.aliyuncs.com/compatible-mode/v1".data,
          apiKeyEnv := some "DASHSCOPE_API_KEY".data, defaultModel := some "qwen-plus".data } =
      specLayeredCredential (fun _ => []) (fun _ => ['x']) ['t'] "qwen".data
        { name := "通义千问".data,
          baseUrl := "https://dashscope.aliyuncs.com/compatible-mode/v1".data,
          apiKeyEnv := some "DASHSCOPE_API_KEY".data, defaultModel := some "qwen-plus".data } :=
  spec_c5_credential_layers.1 (fun _ => []) (fun _ => ['x']) ['t'] "qwen".data _

/-! ## C6: missing credentials fail before any network call -/

/-- With a registered non-libre provider and an empty resolved key, the
TypeScript ask throws the missing-credential error without any request. -/
theorem ts_ask_missing {q : Str} {cfg : Ts.AskConfig} {env : Str → Str}
    {net : NetCall → AxiosChat} {pc : Provider}
    (hp : Ts.PROVIDERS (cfg.provider.getD "deepseek".data) = some pc)
    (hl : ¬cfg.provider.getD "deepseek".data = "libre".data)
    (hk : Ts.resolveApiKey cfg.apiKeys env cfg.token (cfg.provider.getD "deepseek".data) pc = []) :
    Ts.ask q cfg env net = (.fail ⟨missingKeyMsg pc, none⟩, []) := by
  simp only [Ts.ask, hp, if_neg hl, if_pos hk]

/-- Same for the TypeScript askStream. -/
theorem ts_askStream_missing {q : Str} {cfg : Ts.AskConfig} {env : Str → Str}
    {fnet : NetCall → FetchChat} {pc : Provider}
    (hp : Ts.PROVIDERS (cfg.provider.getD "deepseek".data) = some pc)
    (hl : ¬cfg.provider.getD "deepseek".data = "libre".data)
    (hk : Ts.resolveApiKey cfg.apiKeys env cfg.token (cfg.provider.getD "deepseek".data) pc = []) :
    Ts.askStream q cfg env fnet = (.fail ⟨missingKeyMsg pc, none⟩, [], []) := by
  simp only [Ts.askStream, hp, if_neg hl, if_pos hk]

/-- C6: for each credential-bearing provider, calling ask or askStream with
no credential in any layer (no per-provider key, the named environment
variable empty, no legacy token) fails with the missing-credential error —
whose message carries the provider display name and the expected
environment-variable name — and issues no network request. -/
theorem spec_c6_missing_credential :
    ∀ p ∈ credProviders, ∀ pc : Provider, Ts.PROVIDERS p = some pc →
    ∀ (q : Str) (cfg : Ts.AskConfig) (env : Str → Str) (net : NetCall → AxiosChat)
      (fnet : NetCall → FetchChat),
      cfg.provider = some p → cfg.apiKeys p = [] →
      (∀ e, pc.apiKeyEnv = some e → env e = []) → cfg.token = [] →
      Ts.ask q cfg env net = (.fail ⟨missingKeyMsg pc, none⟩, [])
      ∧ Ts.askStream q cfg env fnet = (.fail ⟨missingKeyMsg pc, none⟩, [], [])
      ∧ containsSub pc.name (missingKeyMsg pc) = true
      ∧ containsSub (pc.apiKeyEnv.getD []) (missingKeyMsg pc) = true := by
  intro p hp pc hpc q cfg env net fnet hprov hkeys henv htok
  have hgetd : cfg.provider.getD "deepseek".data = p := by rw [hprov]; rfl
  simp only [credProviders, List.mem_cons, List.not_mem_nil, or_false] at hp
  rcases hp with rfl | rfl | rfl
  · obtain rfl := (Option.some.inj
      ((show Ts.PROVIDERS "deepseek".data = some ⟨"DeepSeek".data,
        "https://api.deepseek.com".data, some "DEEPSEEK_API_KEY".data,
        some "deepseek-chat".data⟩ from rfl).symm.trans hpc)).symm
    have henv2 : env "DEEPSEEK_API_KEY".data = [] := henv _ rfl
    have hl : ¬cfg.provider.getD "deepseek".data = "libre".data := by
      rw [hgetd]; decide
    have hk : Ts.resolveApiKey cfg.apiKeys env cfg.token
        (cfg.provider.getD "deepseek".data)
        (⟨"DeepSeek".data, "https://api.deepseek.com".data, some "DEEPSEEK_API_KEY".data, some "deepseek-chat".data⟩ : Provider) = [] := by
      rw [hgetd]
      simp [Ts.resolveApiKey, hkeys, henv2, htok]
    rw [← hgetd] at hpc
    exact ⟨ts_ask_missing hpc hl hk, ts_askStream_missing hpc hl hk, by decide, by decide⟩
  · obtain rfl := (Option.some.inj
      ((show Ts.PROVIDERS "qwen".data = some ⟨"通义千问".data,
        "https://dashscope.aliyuncs.com/compatible-mode/v1".data,
        some "DASHSCOPE_API_KEY".data, some "qwen-plus".data⟩ from rfl).symm.trans hpc)).symm
    have henv2 : env "DASHSCOPE_API_KEY".data = [] := henv _ rfl
    have hl : ¬cfg.provider.getD "deepseek".data = "libre".data := by
      rw [hgetd]; decide
    have hk : Ts.resolveApiKey cfg.apiKeys env cfg.token
        (cfg.provider.getD "deepseek".data)
        (⟨"通义千问".data, "https://dashscope.aliyuncs.com/compatible-mode/v1".data, some "DASHSCOPE_API_KEY".data, some "qwen-plus".data⟩ : Provider) = [] := by
      rw [hgetd]
      simp [Ts.resolveApiKey, hkeys, henv2, htok]
    rw [← hgetd] at hpc
    exact ⟨ts_ask_missing hpc hl hk, ts_askStream_missing hpc hl hk, by decide, by decide⟩
  · obtain rfl := (Option.some.inj
      ((show Ts.PROVIDERS "openai".data = some ⟨"ChatGPT".data,
        "https://api.openai.com/v1".data, some "OPENAI_API_KEY".data,
        some "gpt-3.5-turbo".data⟩ from rfl).symm.trans hpc)).symm
    have henv2 : env "OPENAI_API_KEY".data = [] := henv _ rfl
    have hl : ¬cfg.provider.getD "deepseek".data = "libre".data := by
      rw [hgetd]; decide
    have hk : Ts.resolveApiKey cfg.apiKeys env cfg.token
        (cfg.provider.getD "deepseek".data)
        (⟨"ChatGPT".data, "https://api.openai.com/v1".data, some "OPENAI_API_KEY".data, some "gpt-3.5-turbo".data⟩ : Provider) = [] := by
      rw [hgetd]
      simp [Ts.resolveApiKey, hkeys, henv2, htok]
    rw [← hgetd] at hpc
    exact ⟨ts_ask_missing hpc hl hk, ts_askStream_missing hpc hl hk, by decide, by decide⟩

/-- Concrete credential-free configuration for the C6 witness. -/
def c6Cfg : Ts.AskConfig := { provider := some "deepseek".data, apiKeys := fun _ => [], token := [] }

/-- Witness for C6: deepseek with nothing configured fails with the
missing-credential error and no request. -/
theorem spec_c6_witness :
    Ts.ask [] c6Cfg emptyEnv c4Net =
      (.fail ⟨missingKeyMsg ⟨"DeepSeek".data, "https://api.deepseek.com".data,
        some "DEEPSEEK_API_KEY".data, some "deepseek-chat".data⟩, none⟩, []) :=
  (spec_c6_missing_credential "deepseek".data (by decide) _ rfl [] c6Cfg emptyEnv c4Net c4Fnet
    rfl rfl (fun _ _ => rfl) rfl).1

/-! ## C7: the credential-free provider rejects chat and serves translate -/

/-- C7: with the libre provider, ask and askStream fail with the
translation-only rejection, regardless of the keys and the environment —
hence before any credential resolution — and issue no network request;
translate on the same provider is served through the free endpoint. -/
theorem spec_c7_libre_rejects_chat :
    (∀ (q : Str) (cfg : AskConfig) (env : Str → Str) (net : NetCall → AxiosChat),
        cfg.provider = some "libre".data →
        ask q cfg env net = (.fail ⟨libreChatMsg, none⟩, []))
    ∧ (∀ (q : Str) (cfg : AskConfig) (env : Str → Str) (fnet : NetCall → FetchChat),
        cfg.provider = some "libre".data →
        askStream q cfg env fnet = (.fail ⟨libreChatMsg, none⟩, [], []))
    ∧ containsSub "仅支持翻译".data libreChatMsg = true
    ∧ (∀ (text : Str) (cfg : TranslateConfig) (env : Str → Str) (net : NetCall → AxiosChat)
        (lnet : LibreCall → LibreResp) (t : Str),
        cfg.provider = some "libre".data →
        lnet ⟨text, cfg.fromLang.getD "auto".data, cfg.toLang.getD "zh".data⟩ = .ok (some t) →
        jsTrim t ≠ [] →
        translate text cfg env net lnet =
          (.ok t, [], [⟨text, cfg.fromLang.getD "auto".data, cfg.toLang.getD "zh".data⟩])) := by
  refine ⟨?_, ?_, by decide, ?_⟩
  · intro q cfg env net hprov
    have hgetd : cfg.provider.getD "deepseek".data = "libre".data := by rw [hprov]; rfl
    simp [ask, hgetd, PROVIDERS]
  · intro q cfg env fnet hprov
    have hgetd : cfg.provider.getD "deepseek".data = "libre".data := by rw [hprov]; rfl
    simp [askStream, hgetd, PROVIDERS]
  · intro text cfg env net lnet t hprov hok htr
    have hgetd : cfg.provider.getD "libre".data = "libre".data := by rw [hprov]; rfl
    simp only [translate, hgetd, if_pos rfl, translateWithLibre, hok, if_pos htr]
    simp

/-- Concrete libre configuration for the C7 witness. -/
def c7Cfg : AskConfig := { provider := some "libre".data, apiKeys := fun _ => ['k'] }

/-- Witness for C7: the libre provider rejects ask even with a key
configured, with no request issued. -/
theorem spec_c7_witness :
    ask [] c7Cfg emptyEnv c4Net = (.fail ⟨libreChatMsg, none⟩, []) :=
  spec_c7_libre_rejects_chat.1 [] c7Cfg emptyEnv c4Net rfl

/-! ## C8: unknown providers fail fast -/

/-- C8: with a provider id outside the registry, ask, askStream and
translate each fail with the unknown-provider error, regardless of the keys
and the environment — hence before any credential resolution — and issue no
network request. -/
theorem spec_c8_unknown_provider :
    ∀ p : Str, PROVIDERS p = none →
    ∀ (q text : Str) (cfg : AskConfig) (tcfg : TranslateConfig) (env : Str → Str)
      (net : NetCall → AxiosChat) (fnet : NetCall → FetchChat) (lnet : LibreCall → LibreResp),
      cfg.provider = some p → tcfg.provider = some p →
      ask q cfg env net = (.fail ⟨unknownAiMsg p, none⟩, [])
      ∧ askStream q cfg env fnet = (.fail ⟨unknownAiMsg p, none⟩, [], [])
      ∧ translate text tcfg env net lnet = (.fail ⟨unknownTransMsg p, none⟩, [], []) := by
  intro p hp q text cfg tcfg env net fnet lnet hprov hprov2
  have hgetd : cfg.provider.getD "deepseek".data = p := by rw [hprov]; rfl
  have hgetd2 : tcfg.provider.getD "libre".data = p := by rw [hprov2]; rfl
  have hlib : ¬p = "libre".data := by
    intro h
    rw [h] at hp
    simp [PROVIDERS] at hp
  refine ⟨?_, ?_, ?_⟩
  · simp only [ask, hgetd, hp]
  · simp only [askStream, hgetd, hp]
  · rw [translate]
    simp only [hgetd2, if_neg hlib, hp]

/-- Concrete unknown-provider configurations for the C8 witness. -/
def c8Cfg : AskConfig := { provider := some ['f', 'o', 'o'], apiKeys := fun _ => ['k'] }

/-- Concrete translate configuration with the same unknown provider. -/
def c8TCfg : TranslateConfig :=
  { provider := some ['f', 'o', 'o'], fromLang := none, toLang := none, apiKeys := fun _ => ['k'] }

/-- Concrete libre oracle for witnesses. -/
def okLnet : LibreCall → LibreResp := fun _ => .ok (some ['好'])

/-- Witness for C8: the id foo fails fast on ask with no request. -/
theorem spec_c8_witness :
    ask [] c8Cfg emptyEnv c4Net = (.fail ⟨unknownAiMsg ['f', 'o', 'o'], none⟩, []) :=
  (spec_c8_unknown_provider ['f', 'o', 'o'] (by decide) [] [] c8Cfg c8TCfg emptyEnv
    c4Net c4Fnet okLnet rfl rfl).1

/-! ## C9: the quota hint of the error normalizer -/

/-- C9: normalizing an HTTP-response failure with status 402 or 429 from
the openai provider yields the error whose statusCode is that status and
whose message carries the quota hint (mentioning quota, Billing and
switching provider); for any other provider or status the hint is absent
and the statusCode still equals the response status. -/
theorem spec_c9_quota_hint :
    (∀ (s : Nat) (m : Option Str) (raw fb : Str), s = 402 ∨ s = 429 →
        wrapProviderError (.httpResp s m raw) fb "openai".data =
          ⟨apiErrHead s ++ m.getD raw ++ quotaHintStr, some s⟩)
    ∧ containsSub "额度".data quotaHintStr = true
    ∧ containsSub "Billing".data quotaHintStr = true
    ∧ containsSub "切换".data quotaHintStr = true
    ∧ (∀ (s : Nat) (m : Option Str) (raw fb p : Str),
        (¬p = "openai".data ∨ (¬s = 402 ∧ ¬s = 429)) →
        wrapProviderError (.httpResp s m raw) fb p =
          ⟨apiErrHead s ++ m.getD raw, some s⟩) := by
  refine ⟨?_, by decide, by decide, by decide, ?_⟩
  · intro s m raw fb hs
    simp only [wrapProviderError]
    rw [if_pos (show True ∧ (s = 402 ∨ s = 429) from ⟨trivial, hs⟩)]
  · intro s m raw fb p h
    have hcond : ¬(p = "openai".data ∧ (s = 402 ∨ s = 429)) := by
      intro hc
      rcases h with h | h
      · exact h hc.1
      · rcases hc.2 with h2 | h2
        · exact h.1 h2
        · exact h.2 h2
    simp only [wrapProviderError]
    rw [if_neg hcond]
    simp

/-- Witness for C9: a 429 from openai carries the quota hint and statusCode
429. -/
theorem spec_c9_witness :
    wrapProviderError (.httpResp 429 none ['r']) [] "openai".data =
      ⟨apiErrHead 429 ++ ['r'] ++ quotaHintStr, some 429⟩ :=
  spec_c9_quota_hint.1 429 none ['r'] [] (Or.inr rfl)

end Fanyi
